import Mathlib

/-!
Shallow embedding of the grid-exploration program of this repository
(files `demo.py`, `h1.py`, `h13.py`, `h14.py`).  Coordinates are pairs
`(x, y) : Int × Int` as in the Python source; the grid is a list of rows
indexed `grid[y][x]`, with Python's list-index semantics (negative indices
wrap, other out-of-range indices fail).  Python `set`s of coordinates are
embedded as duplicate-free lists; the `heapq` priority queues are embedded
as lists kept sorted by the exact lexicographic tuple order Python uses,
which coincides with `heapq`'s pop order because no two live heap entries
ever share the same `(key, cell)` prefix.  Randomness (`random.shuffle`,
`random.randint`) is made explicit: callers pass the realized shuffles and
the realized sequence of accepted placement samples.  `while` loops are
given explicit fuel; `none` means "fuel exhausted", `some none` is the
Python `None` result, and `some (some p)` is a returned path `p`.
-/

set_option maxRecDepth 10000

/-- Python list indexing: a valid index for a list of length `n` is
`0 ≤ i < n` (used as is) or `-n ≤ i < 0` (wraps to `n + i`); anything else
raises `IndexError`. -/
def pyIdx (n : Nat) (i : Int) : Option Nat :=
  if 0 ≤ i ∧ i < (n : Int) then some i.toNat
  else if -(n : Int) ≤ i ∧ i < 0 then some (i + (n : Int)).toNat
  else none

/-- `l[i]` with Python index semantics. -/
def listGet? {α : Type} (l : List α) (i : Int) : Option α :=
  (pyIdx l.length i).bind (fun j => l.get? j)

/-- `l[i] = v` with Python index semantics; `none` models an `IndexError`. -/
def listSet? {α : Type} (l : List α) (i : Int) (v : α) : Option (List α) :=
  (pyIdx l.length i).map (fun j => l.set j v)

/-- The cell-state matrix: a list of rows of integer cell states, read as
`grid[y][x]`. -/
abbrev Grid := List (List Int)

/-- Cell state `UNVISITED = 0` of the source. -/
def UNVISITED : Int := 0
/-- Cell state `VISITED = 1` of the source. -/
def VISITED : Int := 1
/-- Cell state `OBSTACLE = 2` of the source. -/
def OBSTACLE : Int := 2
/-- Cell state `ROBOT = 3` of the source. -/
def ROBOT : Int := 3
/-- Cell state `RETRACED_PATH = 4` of the source. -/
def RETRACED_PATH : Int := 4
/-- Cell state `DYNAMIC_OBSTACLE = 5` of the source. -/
def DYNAMIC_OBSTACLE : Int := 5

/-- `grid[y][x]`, with the junk value `-1` (no cell state) when the read
would raise; every unguarded read of the source happens at an in-bounds
coordinate, where this agrees with Python. -/
def cellAt (g : Grid) (x y : Int) : Int :=
  ((listGet? g y).bind (fun row => listGet? row x)).getD (-1)

/-- `grid[y][x] = v`; `none` models the `IndexError` Python would raise. -/
def setCell? (g : Grid) (x y : Int) (v : Int) : Option Grid :=
  (pyIdx g.length y).bind fun yi =>
    (g.get? yi).bind fun row =>
      (listSet? row x v).map fun row' => g.set yi row'

/-- `grid[y][x] = v` as a total function (no-op where Python would raise;
every unguarded write of the source happens at an in-bounds coordinate). -/
def setCell (g : Grid) (x y : Int) (v : Int) : Grid :=
  (setCell? g x y v).getD g

/-- In-bounds predicate `0 <= x < width and 0 <= y < height` of the source. -/
def InB (w h : Int) (c : Int × Int) : Prop :=
  0 ≤ c.1 ∧ c.1 < w ∧ 0 ≤ c.2 ∧ c.2 < h

instance (w h : Int) (c : Int × Int) : Decidable (InB w h c) := by
  unfold InB; infer_instance

/-- The fixed direction list `[(0, 1), (1, 0), (0, -1), (-1, 0)]` of the
source. -/
def dirs4 : List (Int × Int) := [(0, 1), (1, 0), (0, -1), (-1, 0)]

/-- The state of a `RobotNavigation` object (fields of the Python class;
the `visited_cells` / `unvisited_cells` sets are duplicate-free lists). -/
structure NavState where
  width : Int
  height : Int
  grid : Grid
  robot_pos : Int × Int
  visited_cells : List (Int × Int)
  unvisited_cells : List (Int × Int)
  dynamic_obstacles : List (Int × Int)
deriving DecidableEq, Repr, Inhabited

/-- Python exceptions that `RobotNavigation.__init__` can raise:
`IndexError` from an out-of-range grid write, `ValueError` from
`random.randint` on an empty range (`width <= 0` or `height <= 0`). -/
inductive PyErr where
  | indexError : PyErr
  | valueError : PyErr
deriving DecidableEq, Repr

/-- All in-bounds coordinates in the generator order
`for x in range(width) for y in range(height)` of `__init__`. -/
def allCoords (w h : Int) : List (Int × Int) :=
  (List.range w.toNat).flatMap
    (fun x => (List.range h.toNat).map (fun y => (Int.ofNat x, Int.ofNat y)))

/-- The initial `unvisited_cells` set of `__init__` before static obstacles
are removed: every coordinate except `(0, 0)`. -/
def initUnvisited (w h : Int) : List (Int × Int) :=
  (allCoords w h).filter (fun c => c ≠ (0, 0))

/-- The zero-filled `width × height` matrix built by `__init__`. -/
def initGrid (w h : Int) : Grid :=
  List.replicate h.toNat (List.replicate w.toNat 0)

/-- The static-obstacle loop of `__init__`: each coordinate is written
`OBSTACLE` into the grid (raising `IndexError` exactly when Python would)
and discarded from the unvisited set when present. -/
def placeObstacles :
    Grid × List (Int × Int) → List (Int × Int) → Except PyErr (Grid × List (Int × Int))
  | (g, unvis), [] => .ok (g, unvis)
  | (g, unvis), c :: rest =>
    match setCell? g c.1 c.2 OBSTACLE with
    | none => .error .indexError
    | some g' => placeObstacles (g', unvis.erase c) rest

/-- The dynamic-obstacle placement loop of `__init__`.  `dyn` is the
realized stream of accepted `random.randint` samples (the source draws 3
of them in `demo.py`/`h14.py` and 5 in `h1.py`/`h13.py`, resampling until
the sampled cell's state is `UNVISITED`).  A draw with `width <= 0` or
`height <= 0` raises `ValueError` as `random.randint` does; a supplied
sample that Python's rejection loop could not have accepted is also
reported as `ValueError` (such a sample is never produced by the source). -/
def placeDyn (w h : Int) :
    Grid → List (Int × Int) → Except PyErr (Grid × List (Int × Int))
  | g, [] => .ok (g, [])
  | g, c :: rest =>
    if w ≤ 0 ∨ h ≤ 0 then .error .valueError
    else if InB w h c ∧ cellAt g c.1 c.2 = UNVISITED then
      match placeDyn w h (setCell g c.1 c.2 DYNAMIC_OBSTACLE) rest with
      | .ok (g', ds) => .ok (g', c :: ds)
      | .error e => .error e
    else .error .valueError

/-- `RobotNavigation.__init__(width, height, obstacles)`, with the
realized dynamic-obstacle samples `dyn` passed explicitly.  Mirrors the
source order: build the zero grid and the visited/unvisited sets, mark
static obstacles, place dynamic obstacles, then mark the robot cell. -/
def RobotNavigation_init (width height : Int) (obstacles dyn : List (Int × Int)) :
    Except PyErr NavState :=
  match placeObstacles (initGrid width height, initUnvisited width height) obstacles with
  | .error e => .error e
  | .ok (g1, unvis) =>
    match placeDyn width height g1 dyn with
    | .error e => .error e
    | .ok (g2, ds) =>
      match setCell? g2 0 0 ROBOT with
      | none => .error .indexError
      | some g3 =>
        .ok { width := width, height := height, grid := g3, robot_pos := (0, 0),
              visited_cells := [(0, 0)], unvisited_cells := unvis,
              dynamic_obstacles := ds }

/-- One dynamic obstacle's step in `move_dynamic_obstacles`: restore the
vacated cell from set membership, then take the first direction of the
realized shuffle `dirs` whose target is in bounds, has cell state in
`[UNVISITED, VISITED, RETRACED_PATH]` and is not `ROBOT`; stay put if none
qualifies. -/
def stepOneObstacle (w h : Int) (visited unvisited : List (Int × Int))
    (g : Grid) (pos : Int × Int) (dirs : List (Int × Int)) : Grid × (Int × Int) :=
  let g1 :=
    if pos ∈ visited then setCell g pos.1 pos.2 VISITED
    else if pos ∉ unvisited then setCell g pos.1 pos.2 RETRACED_PATH
    else setCell g pos.1 pos.2 UNVISITED
  match dirs.find? (fun d =>
      decide (InB w h (pos.1 + d.1, pos.2 + d.2) ∧
        (cellAt g1 (pos.1 + d.1) (pos.2 + d.2) = UNVISITED ∨
         cellAt g1 (pos.1 + d.1) (pos.2 + d.2) = VISITED ∨
         cellAt g1 (pos.1 + d.1) (pos.2 + d.2) = RETRACED_PATH) ∧
        cellAt g1 (pos.1 + d.1) (pos.2 + d.2) ≠ ROBOT)) with
  | some d => (setCell g1 (pos.1 + d.1) (pos.2 + d.2) DYNAMIC_OBSTACLE,
               (pos.1 + d.1, pos.2 + d.2))
  | none => (g1, pos)

/-- The `for i, obstacle in enumerate(self.dynamic_obstacles)` loop of
`move_dynamic_obstacles`; `shuffle i` is the realized shuffled direction
list for the `i`-th obstacle. -/
def moveDynLoop (w h : Int) (visited unvisited : List (Int × Int))
    (shuffle : Nat → List (Int × Int)) :
    Grid → List (Int × Int) → Nat → Grid × List (Int × Int)
  | g, [], _ => (g, [])
  | g, o :: rest, i =>
    let r := stepOneObstacle w h visited unvisited g o (shuffle i)
    let r' := moveDynLoop w h visited unvisited shuffle r.1 rest (i + 1)
    (r'.1, r.2 :: r'.2)

/-- `RobotNavigation.move_dynamic_obstacles` (identical in all four
files), with the realized shuffles passed explicitly. -/
def move_dynamic_obstacles (s : NavState) (shuffle : Nat → List (Int × Int)) :
    NavState :=
  let r := moveDynLoop s.width s.height s.visited_cells s.unvisited_cells
    shuffle s.grid s.dynamic_obstacles 0
  { s with grid := r.1, dynamic_obstacles := r.2 }

/-- A heap entry `(priority, cell, path)` as pushed by the source. -/
abbrev Entry := Int × (Int × Int) × List (Int × Int)

/-- Python `<` on coordinate pairs (tuple lexicographic order). -/
def pairLt (a b : Int × Int) : Bool :=
  a.1 < b.1 || (a.1 = b.1 && a.2 < b.2)

/-- Python `<` on paths (list lexicographic order over pairs). -/
def pathLt : List (Int × Int) → List (Int × Int) → Bool
  | [], [] => false
  | [], _ :: _ => true
  | _ :: _, [] => false
  | a :: as_, b :: bs => pairLt a b || (a = b && pathLt as_ bs)

/-- Python `<` on heap entries (tuple lexicographic order); no two live
entries of any heap of the source share their first two components, so a
list kept sorted by this order pops exactly as `heapq` does. -/
def entryLt (a b : Entry) : Bool :=
  a.1 < b.1 ||
    (a.1 = b.1 && (pairLt a.2.1 b.2.1 || (a.2.1 = b.2.1 && pathLt a.2.2 b.2.2)))

/-- `heapq.heappush`: insert into the sorted list, after equal entries. -/
def heapPush (e : Entry) : List Entry → List Entry
  | [] => [e]
  | x :: xs => if entryLt e x then e :: x :: xs else x :: heapPush e xs

/-- The `unexplored_neighbors` count of `find_most_efficient_path`: how
many of the four neighbours of `c` are in bounds with state `UNVISITED`. -/
def unexploredCount (w h : Int) (g : Grid) (c : Int × Int) : Int :=
  ((dirs4.filter (fun d =>
    decide (InB w h (c.1 + d.1, c.2 + d.2) ∧
      cellAt g (c.1 + d.1) (c.2 + d.2) = UNVISITED))).length : Int)

/-- The inner `for dx, dy in [...]` loop of `find_most_efficient_path`:
either an early `return new_path` (`Sum.inr`) on the first neighbour that
is a member of the unvisited set, or the updated heap and search-visited
set (`Sum.inl`). -/
def visitNbrs (w h : Int) (g : Grid) (unvis : List (Int × Int))
    (current : Int × Int) (path : List (Int × Int)) :
    List (Int × Int) → List Entry → List (Int × Int) →
    (List Entry × List (Int × Int)) ⊕ List (Int × Int)
  | [], open_set, vset => .inl (open_set, vset)
  | d :: ds, open_set, vset =>
    let nbr := (current.1 + d.1, current.2 + d.2)
    if InB w h nbr ∧
        ¬(cellAt g nbr.1 nbr.2 = OBSTACLE ∨ cellAt g nbr.1 nbr.2 = DYNAMIC_OBSTACLE) ∧
        nbr ∉ vset then
      let new_path := path ++ [nbr]
      if nbr ∈ unvis then .inr new_path
      else
        visitNbrs w h g unvis current path ds
          (heapPush ((new_path.length : Int) - unexploredCount w h g nbr, nbr, new_path)
            open_set)
          (vset ++ [nbr])
    else visitNbrs w h g unvis current path ds open_set vset

/-- The `while open_set:` loop of `find_most_efficient_path`, with fuel. -/
def findLoop (w h : Int) (g : Grid) (unvis : List (Int × Int)) :
    List Entry → List (Int × Int) → Nat → Option (Option (List (Int × Int)))
  | _, _, 0 => none
  | [], _, _ + 1 => some none
  | (_, current, path) :: rest, vset, fuel + 1 =>
    match visitNbrs w h g unvis current path dirs4 rest vset with
    | .inr p => some (some p)
    | .inl r => findLoop w h g unvis r.1 r.2 fuel

/-- `RobotNavigation.find_most_efficient_path` of `demo.py` (the frontier
search; its body is verbatim-identical in `h14.py` and it is the
`len(unvisited) != 1` branch of `h1.py`/`h13.py`). -/
def find_most_efficient_path (s : NavState) (fuel : Nat) :
    Option (Option (List (Int × Int))) :=
  findLoop s.width s.height s.grid s.unvisited_cells
    [((0 : Int), s.robot_pos, [])] [s.robot_pos] fuel

/-- `RobotNavigation.find_most_efficient_path` of `h14.py`; the source is
verbatim-identical to `demo.py`'s, so the embedding shares its loop. -/
def h14_find_most_efficient_path (s : NavState) (fuel : Nat) :
    Option (Option (List (Int × Int))) :=
  findLoop s.width s.height s.grid s.unvisited_cells
    [((0 : Int), s.robot_pos, [])] [s.robot_pos] fuel

/-- Lookup in the `g_score` dict of `astar_pathfinding`. -/
def gLookup (m : List ((Int × Int) × Int)) (c : Int × Int) : Option Int :=
  (m.find? (fun p => p.1 = c)).map (fun p => p.2)

/-- Assignment `g_score[c] = v`. -/
def gInsert (c : Int × Int) (v : Int) : List ((Int × Int) × Int) → List ((Int × Int) × Int)
  | [] => [(c, v)]
  | p :: rest => if p.1 = c then (c, v) :: rest else p :: gInsert c v rest

/-- The inner neighbour loop of `astar_pathfinding`: relax each in-bounds
non-obstacle neighbour, re-pushing on a strictly cheaper tentative score. -/
def astarNbrs (w h : Int) (g : Grid) (target current : Int × Int)
    (path : List (Int × Int)) :
    List (Int × Int) → List Entry → List ((Int × Int) × Int) →
    List Entry × List ((Int × Int) × Int)
  | [], open_set, gs => (open_set, gs)
  | d :: ds, open_set, gs =>
    let nbr := (current.1 + d.1, current.2 + d.2)
    if InB w h nbr ∧
        ¬(cellAt g nbr.1 nbr.2 = OBSTACLE ∨ cellAt g nbr.1 nbr.2 = DYNAMIC_OBSTACLE) then
      let tent := (gLookup gs current).getD 0 + 1
      if (gLookup gs nbr).isNone ∨ (∃ old, gLookup gs nbr = some old ∧ tent < old) then
        astarNbrs w h g target current path ds
          (heapPush
            (tent + ((nbr.1 - target.1).natAbs : Int) + ((nbr.2 - target.2).natAbs : Int),
              nbr, path ++ [current]) open_set)
          (gInsert nbr tent gs)
      else astarNbrs w h g target current path ds open_set gs
    else astarNbrs w h g target current path ds open_set gs

/-- The `while open_set:` loop of `astar_pathfinding`, with fuel. -/
def astarLoop (w h : Int) (g : Grid) (target : Int × Int) :
    List Entry → List ((Int × Int) × Int) → List (Int × Int) → Nat →
    Option (Option (List (Int × Int)))
  | _, _, _, 0 => none
  | [], _, _, _ + 1 => some none
  | (_, current, path) :: rest, gs, vset, fuel + 1 =>
    if current = target then some (some (path ++ [current]))
    else if current ∈ vset then astarLoop w h g target rest gs vset fuel
    else
      let r := astarNbrs w h g target current path dirs4 rest gs
      astarLoop w h g target r.1 r.2 (vset ++ [current]) fuel

/-- `RobotNavigation.astar_pathfinding(start, target)` of `h1.py` (and,
verbatim-identical, of `h13.py`). -/
def astar_pathfinding (s : NavState) (start target : Int × Int) (fuel : Nat) :
    Option (Option (List (Int × Int))) :=
  astarLoop s.width s.height s.grid target [((0 : Int), start, [])]
    [(start, (0 : Int))] [] fuel

/-- `RobotNavigation.find_most_efficient_path` of `h1.py` (and
`h13.py`): a direct A* route when exactly one unvisited cell remains,
otherwise the frontier search, whose loop is verbatim-identical to
`demo.py`'s. -/
def h1_find_most_efficient_path (s : NavState) (fuel : Nat) :
    Option (Option (List (Int × Int))) :=
  match s.unvisited_cells with
  | [target] => astar_pathfinding s s.robot_pos target fuel
  | _ =>
    findLoop s.width s.height s.grid s.unvisited_cells
      [((0 : Int), s.robot_pos, [])] [s.robot_pos] fuel

/-- The `for x, y in path[:-1]` recolouring loop of `move_robot`: cells
whose current state is `VISITED` become `RETRACED_PATH`. -/
def recolorPath (g : Grid) (cells : List (Int × Int)) : Grid :=
  cells.foldl (fun g' c =>
    if cellAt g' c.1 c.2 = VISITED then setCell g' c.1 c.2 RETRACED_PATH else g') g

/-- `RobotNavigation.move_robot(path)` of `demo.py`: recolour the interior
of the path, refuse to move when the final cell currently holds a dynamic
obstacle (the grid recolouring has already happened), otherwise move the
robot to the final cell and update the visited/unvisited sets. -/
def move_robot (s : NavState) : List (Int × Int) → NavState × Bool
  | [] => (s, false)
  | c0 :: rest =>
    let g1 := recolorPath s.grid (c0 :: rest).dropLast
    let last := rest.getLastD c0
    if cellAt g1 last.1 last.2 = DYNAMIC_OBSTACLE then
      ({ s with grid := g1 }, false)
    else
      let g2 := setCell g1 s.robot_pos.1 s.robot_pos.2 VISITED
      let g3 := setCell g2 last.1 last.2 ROBOT
      ({ s with
          grid := g3
          robot_pos := last
          unvisited_cells := s.unvisited_cells.erase last
          visited_cells :=
            if last ∈ s.visited_cells then s.visited_cells
            else s.visited_cells ++ [last] }, true)

/-- `RobotNavigation.move_robot(path)` of `h13.py` (and, verbatim, of
`h1.py`/`h14.py`, which have no dynamic-obstacle check inside the move). -/
def h13_move_robot (s : NavState) : List (Int × Int) → NavState × Bool
  | [] => (s, false)
  | c0 :: rest =>
    let g1 := recolorPath s.grid (c0 :: rest).dropLast
    let last := rest.getLastD c0
    let g2 := setCell g1 s.robot_pos.1 s.robot_pos.2 VISITED
    let g3 := setCell g2 last.1 last.2 ROBOT
    ({ s with
        grid := g3
        robot_pos := last
        unvisited_cells := s.unvisited_cells.erase last
        visited_cells :=
          if last ∈ s.visited_cells then s.visited_cells
          else s.visited_cells ++ [last] }, true)

/-- The per-tick robot-move decision of `run_simulation` in `h13.py`
(lines 278-296): given the planner result, scan the whole path for a cell
currently marked `DYNAMIC_OBSTACLE`; if one is found the robot waits and
the navigation state is untouched, otherwise `move_robot` runs. -/
def h13_tick (s : NavState) : Option (List (Int × Int)) → NavState
  | none => s
  | some p =>
    if p.any (fun c => cellAt s.grid c.1 c.2 = DYNAMIC_OBSTACLE) then s
    else (h13_move_robot s p).1

/-- `RobotNavigation.is_exploration_complete` of `demo.py` (and
`h14.py`): the unvisited set is empty and no grid cell has state
`UNVISITED`. -/
def is_exploration_complete (s : NavState) : Bool :=
  s.unvisited_cells.length = 0 &&
    s.grid.all (fun row => row.all (fun cell => cell ≠ UNVISITED))

/-- `RobotNavigation.is_exploration_complete` of `h1.py` (and `h13.py`):
just `not self.unvisited_cells`. -/
def h1_is_exploration_complete (s : NavState) : Bool :=
  s.unvisited_cells.isEmpty

/-- The reachable states of a `demo.py` navigation session: the freshly
constructed object, evolved by `move_dynamic_obstacles` steps (with any
realized shuffles that are permutations of the four directions) and by
`move_robot` steps applied to paths returned by
`find_most_efficient_path`. -/
inductive Reachable (w h : Int) (obstacles : List (Int × Int)) : NavState → Prop
  | init (dyn : List (Int × Int)) (s : NavState) :
      RobotNavigation_init w h obstacles dyn = .ok s → Reachable w h obstacles s
  | stepDyn (s : NavState) (shuffle : Nat → List (Int × Int)) :
      Reachable w h obstacles s →
      (∀ i, (shuffle i).Perm dirs4) →
      Reachable w h obstacles (move_dynamic_obstacles s shuffle)
  | stepMove (s : NavState) (p : List (Int × Int)) (fuel : Nat) :
      Reachable w h obstacles s →
      find_most_efficient_path s fuel = some (some p) →
      Reachable w h obstacles (move_robot s p).1

/-- Whether a construction attempt produced a session object. -/
def isOk : Except PyErr NavState → Bool
  | .ok _ => true
  | .error _ => false

/-- 4-connected adjacency: one unit step in exactly one cardinal
direction. -/
def Adjacent (a b : Int × Int) : Prop :=
  (b.1 - a.1).natAbs + (b.2 - a.2).natAbs = 1

/-- A coordinate the searches may route through: in bounds and not
currently holding a static or dynamic obstacle marker. -/
def GoodCell (w h : Int) (g : Grid) (c : Int × Int) : Prop :=
  InB w h c ∧ cellAt g c.1 c.2 ≠ OBSTACLE ∧ cellAt g c.1 c.2 ≠ DYNAMIC_OBSTACLE

/-- Everything the frontier search guarantees about a returned path `p`
from `start`: non-empty, a 4-connected chain starting adjacent to
`start`, never through `start`, only through in-bounds non-obstacle
cells, ending at (and only at) a member of the unvisited set. -/
def FrontPath (w h : Int) (g : Grid) (unvis : List (Int × Int))
    (start : Int × Int) (p : List (Int × Int)) : Prop :=
  p ≠ [] ∧ List.Chain Adjacent start p ∧ start ∉ p ∧
    (∀ c ∈ p, GoodCell w h g c) ∧
    (∀ c, p.getLast? = some c → c ∈ unvis) ∧
    (∀ c ∈ p.dropLast, c ∉ unvis)

/-- Loop invariant for one heap entry `(cell, path)` of the frontier
search (the priority component is irrelevant to soundness). -/
def EntryInv (w h : Int) (g : Grid) (unvis : List (Int × Int))
    (start : Int × Int) (cp : (Int × Int) × List (Int × Int)) : Prop :=
  cp.1 = cp.2.getLastD start ∧ List.Chain Adjacent start cp.2 ∧
    start ∉ cp.2 ∧ ∀ c ∈ cp.2, GoodCell w h g c ∧ c ∉ unvis

/-- Loop invariant for one heap entry `(cell, path)` of the A* search:
the full prefix-path `path ++ [cell]` starts at `start`, is a
4-connected chain, and passes only through `start` or in-bounds
non-obstacle cells. -/
def AEntryInv (w h : Int) (g : Grid) (start : Int × Int)
    (cp : (Int × Int) × List (Int × Int)) : Prop :=
  (cp.2 ++ [cp.1]).head? = some start ∧
    List.Chain' Adjacent (cp.2 ++ [cp.1]) ∧
    ∀ c ∈ cp.2 ++ [cp.1], c = start ∨ GoodCell w h g c

/-- Well-formed `width × height` cell matrix. -/
def WFGrid (w h : Int) (g : Grid) : Prop :=
  g.length = h.toNat ∧ ∀ row ∈ g, row.length = w.toNat

/-- The free cells: every in-bounds coordinate not in the static obstacle
list (in the `__init__` generator order). -/
def freeCoords (w h : Int) (obstacles : List (Int × Int)) : List (Int × Int) :=
  (allCoords w h).filter (fun c => c ∉ obstacles)

/-- A session configuration as the claims assume it: distinct, in-bounds
static obstacle coordinates, none equal to the agent start `(0, 0)`. -/
def GoodObstacles (w h : Int) (obstacles : List (Int × Int)) : Prop :=
  obstacles.Nodup ∧ (∀ c ∈ obstacles, InB w h c) ∧ (0, 0) ∉ obstacles

/-- Number of grid cells whose state satisfies `p`. -/
def gridCellCount (g : Grid) (p : Int → Bool) : Nat :=
  (g.map (fun row => row.countP p)).sum

/-- The state invariant maintained by every reachable `demo.py` session:
the grid is well-formed, the visited/unvisited lists partition the free
cells, `OBSTACLE` markers sit exactly on the static obstacle list,
`UNVISITED` markers only on unvisited cells, the robot is on a visited
cell, and dynamic obstacles are in bounds and off the static obstacles. -/
structure NavInv (w h : Int) (obstacles : List (Int × Int)) (s : NavState) : Prop where
  hw : s.width = w
  hh : s.height = h
  hpos : 0 < w ∧ 0 < h
  hwf : WFGrid w h s.grid
  hperm : (s.visited_cells ++ s.unvisited_cells).Perm (freeCoords w h obstacles)
  hobs : ∀ c, InB w h c → (cellAt s.grid c.1 c.2 = OBSTACLE ↔ c ∈ obstacles)
  hzero : ∀ c, InB w h c → cellAt s.grid c.1 c.2 = UNVISITED → c ∈ s.unvisited_cells
  hrobot : s.robot_pos ∈ s.visited_cells
  hdyn : ∀ o ∈ s.dynamic_obstacles, InB w h o ∧ o ∉ obstacles

/-- A run of the `demo.py` driver loop restricted to successful moves:
each iteration plans with `find_most_efficient_path` and applies
`move_robot`, and the run is counted only while every move succeeds. -/
def runOk : NavState → Nat → Option NavState
  | s, 0 => some s
  | s, n + 1 =>
    match find_most_efficient_path s 300 with
    | some (some p) =>
      let r := move_robot s p
      if r.2 then runOk r.1 n else none
    | _ => none

/-- A 5×5 session with no obstacles of any kind, as in the spec's A*
test scenario. -/
def astarScene : NavState :=
  { width := 5, height := 5, grid := initGrid 5 5, robot_pos := (0, 0),
    visited_cells := [(0, 0)], unvisited_cells := [], dynamic_obstacles := [] }

/-- A 3×3 session whose only unvisited cell is `(2, 2)`, agent at
`(0, 0)`, as in the spec's frontier test scenario. -/
def frontierScene : NavState :=
  { width := 3, height := 3,
    grid := [[3, 1, 1], [1, 1, 1], [1, 1, 0]],
    robot_pos := (0, 0),
    visited_cells := [(0, 0), (1, 0), (2, 0), (0, 1), (1, 1), (2, 1), (0, 2), (1, 2)],
    unvisited_cells := [(2, 2)], dynamic_obstacles := [] }

/-- A 3×3 session with one dynamic obstacle at `(1, 1)` and one
unvisited cell at `(0, 2)`; the planner routes the robot through
`(0, 1)`. -/
def blockScene : NavState :=
  { width := 3, height := 3,
    grid := [[3, 1, 1], [1, 5, 1], [0, 1, 1]],
    robot_pos := (0, 0),
    visited_cells := [(0, 0), (1, 0), (2, 0), (0, 1), (1, 1), (2, 1), (1, 2), (2, 2)],
    unvisited_cells := [(0, 2)], dynamic_obstacles := [(1, 1)] }

/-- A realized shuffle that moves `blockScene`'s dynamic obstacle from
`(1, 1)` onto the planned path cell `(0, 1)`. -/
def blockShuffle : Nat → List (Int × Int) := fun _ => [(-1, 0), (0, 1), (1, 0), (0, -1)]

/-- `blockScene` after the dynamic obstacle has moved onto `(0, 1)`. -/
def blockScene' : NavState := move_dynamic_obstacles blockScene blockShuffle

/-- The 4×4 session of the spec's coverage scenario: no static obstacles
and (modelling the scenario's "no dynamic obstacles") an empty stream of
dynamic-obstacle placements — the repository itself hard-codes 3
(`demo.py`) or 5 (`h1.py`) dynamic obstacles. -/
def coverScene : NavState :=
  match RobotNavigation_init 4 4 [] [] with
  | .ok s => s
  | .error _ => default

/-- A 3×3 session whose first dynamic obstacle, at `(2, 2)`, is walled in
by the static obstacles `(1, 2)` and `(2, 1)` and so can never move. -/
def stuckScene : NavState :=
  match RobotNavigation_init 3 3 [(1, 2), (2, 1)] [(2, 2), (1, 1), (2, 0)] with
  | .ok s => s
  | .error _ => default

/-- The session produced by constructing with the out-of-bounds obstacle
coordinate `(-1, 0)` on a 2×2 grid: Python silently wraps the negative
index and marks cell `(1, 0)` instead, and no error is raised. -/
def wrapScene : NavState :=
  match RobotNavigation_init 2 2 [(-1, 0)] [(0, 0), (0, 1), (1, 1)] with
  | .ok s => s
  | .error _ => default

/-- A freshly constructed 2×2 session with no static obstacles and three
dynamic obstacles, used as a concrete reachable state. -/
def witScene : NavState :=
  match RobotNavigation_init 2 2 [] [(0, 1), (1, 0), (1, 1)] with
  | .ok s => s
  | .error _ => default

/-- A 3×3 session with two unvisited cells, used to exercise the
`len(unvisited) != 1` branch shared by all three frontier searches. -/
def twoLeftScene : NavState :=
  { width := 3, height := 3,
    grid := [[3, 1, 1], [1, 1, 1], [1, 0, 0]],
    robot_pos := (0, 0),
    visited_cells := [(0, 0), (1, 0), (2, 0), (0, 1), (1, 1), (2, 1), (0, 2)],
    unvisited_cells := [(1, 2), (2, 2)], dynamic_obstacles := [] }

/-! ### Basic facts about Python-style indexing and the grid -/

lemma pyIdx_pos {n : Nat} {i : Int} (h0 : 0 ≤ i) (h1 : i < (n : Int)) :
    pyIdx n i = some i.toNat := by
  unfold pyIdx
  rw [if_pos ⟨h0, h1⟩]

lemma row_of_inb {w h : Int} {g : Grid} (hg : WFGrid w h g) {x y : Int}
    (hc : InB w h (x, y)) :
    ∃ row, g.get? y.toNat = some row ∧ row.length = w.toNat := by
  obtain ⟨hx0, hxw, hy0, hyh⟩ := hc
  have hlen : y.toNat < g.length := by rw [hg.1]; omega
  refine ⟨g.get ⟨y.toNat, hlen⟩, List.get?_eq_get hlen, ?_⟩
  exact hg.2 _ (g.get_mem _ _)

lemma cellAt_of_row {w h : Int} {g : Grid} (hg : WFGrid w h g) {x y : Int}
    (hc : InB w h (x, y)) {row : List Int} (hrow : g.get? y.toNat = some row) :
    cellAt g x y = (row.get? x.toNat).getD (-1) := by
  obtain ⟨hx0, hxw, hy0, hyh⟩ := hc
  have hwlen : row.length = w.toNat := hg.2 _ (List.get?_mem hrow)
  have h1 : y < (g.length : Int) := by rw [hg.1]; omega
  have h2 : x < (row.length : Int) := by rw [hwlen]; omega
  unfold cellAt listGet?
  rw [pyIdx_pos hy0 h1]
  simp only [Option.some_bind]
  rw [hrow]
  simp only [Option.some_bind]
  rw [pyIdx_pos hx0 h2]
  simp only [Option.some_bind]

lemma setCell_of_inb {w h : Int} {g : Grid} (hg : WFGrid w h g) {x y : Int}
    (hc : InB w h (x, y)) {row : List Int} (hrow : g.get? y.toNat = some row)
    (v : Int) :
    setCell g x y v = g.set y.toNat (row.set x.toNat v) := by
  obtain ⟨hx0, hxw, hy0, hyh⟩ := hc
  have hwlen : row.length = w.toNat := hg.2 _ (List.get?_mem hrow)
  have h1 : y < (g.length : Int) := by rw [hg.1]; omega
  have h2 : x < (row.length : Int) := by rw [hwlen]; omega
  unfold setCell setCell? listSet?
  rw [pyIdx_pos hy0 h1]
  simp only [Option.some_bind]
  rw [hrow]
  simp only [Option.some_bind]
  rw [pyIdx_pos hx0 h2]
  simp

lemma WFGrid_setCell {w h : Int} {g : Grid} (hg : WFGrid w h g) (x y v : Int) :
    WFGrid w h (setCell g x y v) := by
  unfold setCell
  cases hs : setCell? g x y v with
  | none => simpa using hg
  | some g' =>
    simp only [Option.getD_some]
    unfold setCell? at hs
    rcases Option.bind_eq_some.1 hs with ⟨yi, _, hs2⟩
    rcases Option.bind_eq_some.1 hs2 with ⟨row, hrow, hs3⟩
    rcases Option.map_eq_some'.1 hs3 with ⟨row', hrow', hg'⟩
    unfold listSet? at hrow'
    rcases Option.map_eq_some'.1 hrow' with ⟨xi, _, hrowset⟩
    constructor
    · rw [← hg', List.length_set, hg.1]
    · intro r hr
      rcases List.mem_or_eq_of_mem_set (hg' ▸ hr) with hmem | heq
      · exact hg.2 _ hmem
      · rw [heq, ← hrowset, List.length_set]
        exact hg.2 _ (List.get?_mem hrow)


lemma mem_heapPush {e e' : Entry} : ∀ {l : List Entry},
    e' ∈ heapPush e l ↔ e' = e ∨ e' ∈ l := by
  intro l
  induction l with
  | nil => simp [heapPush]
  | cons x xs ih =>
    by_cases hlt : entryLt e x
    · simp [heapPush, hlt]
    · rw [heapPush, if_neg hlt]
      simp only [List.mem_cons, ih]
      tauto

lemma cellAt_setCell_self {w h : Int} {g : Grid} (hg : WFGrid w h g)
    {c : Int × Int} (hc : InB w h c) (v : Int) :
    cellAt (setCell g c.1 c.2 v) c.1 c.2 = v := by
  obtain ⟨x, y⟩ := c
  obtain ⟨row, hrow, hwlen⟩ := row_of_inb hg hc
  rw [setCell_of_inb hg hc hrow v]
  have hylen : y.toNat < g.length := by
    rw [hg.1]; obtain ⟨_, _, hy0, hyh⟩ := hc; omega
  have hxlen : x.toNat < row.length := by
    rw [hwlen]; obtain ⟨hx0, hxw, _, _⟩ := hc; omega
  have hrow' : (g.set y.toNat (row.set x.toNat v)).get? y.toNat
      = some (row.set x.toNat v) := by
    rw [List.get?_set_eq_of_lt] <;> simp [hylen]
  have hwf' : WFGrid w h (g.set y.toNat (row.set x.toNat v)) := by
    rw [← setCell_of_inb hg hc hrow v]; exact WFGrid_setCell hg x y v
  rw [cellAt_of_row hwf' hc hrow']
  rw [List.get?_set_eq_of_lt _ hxlen]
  rfl

lemma cellAt_setCell_ne {w h : Int} {g : Grid} (hg : WFGrid w h g)
    {c c' : Int × Int} (hc : InB w h c) (hc' : InB w h c') (hne : c' ≠ c) (v : Int) :
    cellAt (setCell g c.1 c.2 v) c'.1 c'.2 = cellAt g c'.1 c'.2 := by
  obtain ⟨x, y⟩ := c
  obtain ⟨x', y'⟩ := c'
  obtain ⟨row, hrow, hwlen⟩ := row_of_inb hg hc
  rw [setCell_of_inb hg hc hrow v]
  have hwf' : WFGrid w h (g.set y.toNat (row.set x.toNat v)) := by
    rw [← setCell_of_inb hg hc hrow v]; exact WFGrid_setCell hg x y v
  by_cases hy : y' = y
  · subst hy
    have hxne : x' ≠ x := by
      intro hx; exact hne (by rw [hx])
    have hylen : y'.toNat < g.length := by
      rw [hg.1]; obtain ⟨_, _, hy0, hyh⟩ := hc'; omega
    have hrow' : (g.set y'.toNat (row.set x.toNat v)).get? y'.toNat
        = some (row.set x.toNat v) := by
      rw [List.get?_set_eq_of_lt] <;> simp [hylen]
    rw [cellAt_of_row hwf' hc' hrow', cellAt_of_row hg hc' hrow]
    have hxnat : x.toNat ≠ x'.toNat := by
      obtain ⟨hx0, _, _, _⟩ := hc
      obtain ⟨hx0', _, _, _⟩ := hc'
      simp only at hx0 hx0'
      omega
    rw [List.get?_set_ne _ _ hxnat]
  · have hynat : y.toNat ≠ y'.toNat := by
      obtain ⟨_, _, hy0, _⟩ := hc
      obtain ⟨_, _, hy0', _⟩ := hc'
      simp only at hy0 hy0'
      omega
    obtain ⟨row', hrow2, _⟩ := row_of_inb hg hc'
    have hrow2' : (g.set y.toNat (row.set x.toNat v)).get? y'.toNat = some row' := by
      rw [List.get?_set_ne _ _ hynat, hrow2]
    rw [cellAt_of_row hwf' hc' hrow2', cellAt_of_row hg hc' hrow2]

/-! ### Chain and adjacency helpers -/

lemma adjacent_dir {d : Int × Int} (hd : d ∈ dirs4) (c : Int × Int) :
    Adjacent c (c.1 + d.1, c.2 + d.2) := by
  fin_cases hd <;> simp only [Adjacent] <;> omega

lemma chain_snoc {α : Type} {R : α → α → Prop} :
    ∀ {l : List α} {a c : α}, List.Chain R a l → R (l.getLastD a) c →
      List.Chain R a (l ++ [c])
  | [], a, c, _, hR => List.Chain.cons hR List.Chain.nil
  | b :: t, a, c, hch, hR => by
    rcases List.chain_cons.1 hch with ⟨hab, hbt⟩
    exact List.chain_cons.2 ⟨hab, chain_snoc hbt (by rwa [List.getLastD_cons] at hR)⟩

lemma getLast?_cons_eq {α : Type} (c0 : α) (rest : List α) :
    (c0 :: rest).getLast? = some (rest.getLastD c0) := by
  induction rest generalizing c0 with
  | nil => rfl
  | cons b t ih =>
    rw [List.getLastD_cons]
    rw [show (c0 :: b :: t).getLast? = (b :: t).getLast? from rfl]
    exact ih b

lemma head?_append_of_head? {α : Type} {l l₂ : List α} {a : α}
    (hl : l.head? = some a) : (l ++ l₂).head? = some a := by
  cases l with
  | nil => simp at hl
  | cons x t => simpa using hl

lemma chain'_snoc {α : Type} {R : α → α → Prop} {l : List α} {c : α}
    (hch : List.Chain' R l) (hR : ∀ b, l.getLast? = some b → R b c) :
    List.Chain' R (l ++ [c]) := by
  rw [List.chain'_append]
  refine ⟨hch, List.chain'_singleton c, ?_⟩
  intro x hx y hy
  simp only [List.head?_cons, Option.mem_some_iff] at hy
  subst hy
  exact hR x hx

/-! ### Soundness of the frontier search -/

lemma visitNbrs_spec (w h : Int) (g : Grid) (unvis : List (Int × Int))
    (start : Int × Int) :
    ∀ (ds : List (Int × Int)), (∀ d ∈ ds, d ∈ dirs4) →
    ∀ (current : Int × Int) (path : List (Int × Int)) (open_set : List Entry)
      (vset : List (Int × Int)), start ∈ vset →
    EntryInv w h g unvis start (current, path) →
    (∀ e ∈ open_set, EntryInv w h g unvis start e.2) →
    (match visitNbrs w h g unvis current path ds open_set vset with
     | .inr p => FrontPath w h g unvis start p
     | .inl r => (∀ e ∈ r.1, EntryInv w h g unvis start e.2) ∧ start ∈ r.2) := by
  intro ds
  induction ds with
  | nil =>
    intro _ current path open_set vset hst hcur hopen
    simp only [visitNbrs]
    exact ⟨hopen, hst⟩
  | cons d ds ih =>
    intro hds current path open_set vset hst hcur hopen
    have hd4 : d ∈ dirs4 := hds d (List.mem_cons_self d ds)
    have hds' : ∀ d' ∈ ds, d' ∈ dirs4 := fun d' hd' => hds d' (List.mem_cons_of_mem d hd')
    obtain ⟨hcl, hch, hstp, hcells⟩ := hcur
    set nbr : Int × Int := (current.1 + d.1, current.2 + d.2) with hnbr
    by_cases h1 : InB w h nbr ∧
        ¬(cellAt g nbr.1 nbr.2 = OBSTACLE ∨ cellAt g nbr.1 nbr.2 = DYNAMIC_OBSTACLE) ∧
        nbr ∉ vset
    · have hadj : Adjacent current nbr := adjacent_dir hd4 current
      have hchain' : List.Chain Adjacent start (path ++ [nbr]) :=
        chain_snoc hch (by rw [← hcl]; exact hadj)
      have hnbrstart : nbr ≠ start := fun he => h1.2.2 (he ▸ hst)
      have hgood : GoodCell w h g nbr :=
        ⟨h1.1, fun he => h1.2.1 (Or.inl he), fun he => h1.2.1 (Or.inr he)⟩
      have hnotmem : start ∉ path ++ [nbr] := by
        intro hmem
        rcases List.mem_append.1 hmem with hmem | hmem
        · exact hstp hmem
        · simp only [List.mem_singleton] at hmem
          exact hnbrstart hmem.symm
      by_cases h2 : nbr ∈ unvis
      · have heq : visitNbrs w h g unvis current path (d :: ds) open_set vset
            = .inr (path ++ [nbr]) := by
          simp only [visitNbrs]
          rw [if_pos h1, if_pos h2]
        rw [heq]
        refine ⟨by simp, hchain', hnotmem, ?_, ?_, ?_⟩
        · intro c hc
          rcases List.mem_append.1 hc with hc | hc
          · exact (hcells c hc).1
          · simp only [List.mem_singleton] at hc
            exact hc ▸ hgood
        · intro c hc
          rw [List.getLast?_concat] at hc
          cases hc
          exact h2
        · intro c hc
          rw [List.dropLast_concat] at hc
          exact (hcells c hc).2
      · have heq : visitNbrs w h g unvis current path (d :: ds) open_set vset
            = visitNbrs w h g unvis current path ds
                (heapPush (((path ++ [nbr]).length : Int) - unexploredCount w h g nbr,
                  nbr, path ++ [nbr]) open_set)
                (vset ++ [nbr]) := by
          simp only [visitNbrs]
          rw [if_pos h1, if_neg h2]
        rw [heq]
        apply ih hds' current path _ _ (List.mem_append_left _ hst)
          ⟨hcl, hch, hstp, hcells⟩
        intro e he
        rcases mem_heapPush.1 he with he | he
        · subst he
          refine ⟨(List.getLastD_concat _ _ _).symm, hchain', hnotmem, ?_⟩
          intro c hc
          rcases List.mem_append.1 hc with hc | hc
          · exact hcells c hc
          · simp only [List.mem_singleton] at hc
            exact hc ▸ ⟨hgood, h2⟩
        · exact hopen e he
    · have heq : visitNbrs w h g unvis current path (d :: ds) open_set vset
          = visitNbrs w h g unvis current path ds open_set vset := by
        simp only [visitNbrs]
        rw [if_neg h1]
      rw [heq]
      exact ih hds' current path open_set vset hst ⟨hcl, hch, hstp, hcells⟩ hopen

lemma findLoop_sound (w h : Int) (g : Grid) (unvis : List (Int × Int))
    (start : Int × Int) :
    ∀ (fuel : Nat) (open_set : List Entry) (vset : List (Int × Int)),
    start ∈ vset →
    (∀ e ∈ open_set, EntryInv w h g unvis start e.2) →
    ∀ p, findLoop w h g unvis open_set vset fuel = some (some p) →
    FrontPath w h g unvis start p := by
  intro fuel
  induction fuel with
  | zero => intro open_set vset _ _ p hp; simp [findLoop] at hp
  | succ n ih =>
    intro open_set vset hst hopen p hp
    cases open_set with
    | nil => simp [findLoop] at hp
    | cons e rest =>
      obtain ⟨pri, current, path⟩ := e
      rw [findLoop] at hp
      have hspec := visitNbrs_spec w h g unvis start dirs4 (fun d hd => hd)
        current path rest vset hst
        (hopen (pri, current, path) (List.mem_cons_self _ _))
        (fun e' he' => hopen e' (List.mem_cons_of_mem _ he'))
      cases hm : visitNbrs w h g unvis current path dirs4 rest vset with
      | inr p' =>
        rw [hm] at hp hspec
        simp only at hp hspec
        cases hp
        exact hspec
      | inl r =>
        rw [hm] at hp hspec
        simp only at hp hspec
        exact ih r.1 r.2 hspec.2 hspec.1 p hp

/-- Everything `find_most_efficient_path` guarantees about a returned
path, at the state it was queried in. -/
lemma find_path_spec (s : NavState) (fuel : Nat) (p : List (Int × Int))
    (hp : find_most_efficient_path s fuel = some (some p)) :
    FrontPath s.width s.height s.grid s.unvisited_cells s.robot_pos p := by
  apply findLoop_sound s.width s.height s.grid s.unvisited_cells s.robot_pos fuel
    [((0 : Int), s.robot_pos, [])] [s.robot_pos] (List.mem_singleton.2 rfl) _ p hp
  intro e he
  simp only [List.mem_singleton] at he
  subst he
  exact ⟨rfl, List.Chain.nil, List.not_mem_nil _, fun c hc => absurd hc (List.not_mem_nil c)⟩

/-! ### Soundness of the A* search -/

lemma astarNbrs_spec (w h : Int) (g : Grid) (target : Int × Int)
    (start : Int × Int) :
    ∀ (ds : List (Int × Int)), (∀ d ∈ ds, d ∈ dirs4) →
    ∀ (current : Int × Int) (path : List (Int × Int)) (open_set : List Entry)
      (gs : List ((Int × Int) × Int)),
    AEntryInv w h g start (current, path) →
    (∀ e ∈ open_set, AEntryInv w h g start e.2) →
    ∀ e ∈ (astarNbrs w h g target current path ds open_set gs).1,
      AEntryInv w h g start e.2 := by
  intro ds
  induction ds with
  | nil =>
    intro _ current path open_set gs _ hopen e he
    exact hopen e he
  | cons d ds ih =>
    intro hds current path open_set gs hcur hopen e he
    have hd4 : d ∈ dirs4 := hds d (List.mem_cons_self d ds)
    have hds' : ∀ d' ∈ ds, d' ∈ dirs4 := fun d' hd' => hds d' (List.mem_cons_of_mem d hd')
    set nbr : Int × Int := (current.1 + d.1, current.2 + d.2) with hnbr
    by_cases h1 : InB w h nbr ∧
        ¬(cellAt g nbr.1 nbr.2 = OBSTACLE ∨ cellAt g nbr.1 nbr.2 = DYNAMIC_OBSTACLE)
    · by_cases h2 : (gLookup gs nbr).isNone
          ∨ (∃ old, gLookup gs nbr = some old ∧ (gLookup gs current).getD 0 + 1 < old)
      · have heq : astarNbrs w h g target current path (d :: ds) open_set gs
            = astarNbrs w h g target current path ds
                (heapPush ((gLookup gs current).getD 0 + 1
                    + ((nbr.1 - target.1).natAbs : Int) + ((nbr.2 - target.2).natAbs : Int),
                  nbr, path ++ [current]) open_set)
                (gInsert nbr ((gLookup gs current).getD 0 + 1) gs) := by
          simp only [astarNbrs]
          rw [if_pos h1, if_pos h2]
        rw [heq] at he
        refine ih hds' current path _ _ hcur ?_ e he
        intro e' he'
        rcases mem_heapPush.1 he' with he' | he'
        · subst he'
          obtain ⟨hhd, hch, hcells⟩ := hcur
          have hadj : Adjacent current nbr := adjacent_dir hd4 current
          refine ⟨head?_append_of_head? hhd, ?_, ?_⟩
          · refine chain'_snoc hch ?_
            intro b hb
            rw [List.getLast?_concat] at hb
            cases hb
            exact hadj
          · intro c hc
            rcases List.mem_append.1 hc with hc | hc
            · exact hcells c hc
            · simp only [List.mem_singleton] at hc
              subst hc
              exact Or.inr ⟨h1.1, fun hx => h1.2 (Or.inl hx), fun hx => h1.2 (Or.inr hx)⟩
        · exact hopen e' he'
      · have heq : astarNbrs w h g target current path (d :: ds) open_set gs
            = astarNbrs w h g target current path ds open_set gs := by
          simp only [astarNbrs]
          rw [if_pos h1, if_neg h2]
        rw [heq] at he
        exact ih hds' current path open_set gs hcur hopen e he
    · have heq : astarNbrs w h g target current path (d :: ds) open_set gs
          = astarNbrs w h g target current path ds open_set gs := by
        simp only [astarNbrs]
        rw [if_neg h1]
      rw [heq] at he
      exact ih hds' current path open_set gs hcur hopen e he

lemma astarLoop_sound (w h : Int) (g : Grid) (target start : Int × Int) :
    ∀ (fuel : Nat) (open_set : List Entry) (gs : List ((Int × Int) × Int))
      (vset : List (Int × Int)),
    (∀ e ∈ open_set, AEntryInv w h g start e.2) →
    ∀ p, astarLoop w h g target open_set gs vset fuel = some (some p) →
    p.head? = some start ∧ p.getLast? = some target ∧ List.Chain' Adjacent p ∧
      ∀ c ∈ p, c = start ∨ GoodCell w h g c := by
  intro fuel
  induction fuel with
  | zero => intro open_set gs vset _ p hp; simp [astarLoop] at hp
  | succ n ih =>
    intro open_set gs vset hopen p hp
    cases open_set with
    | nil => simp [astarLoop] at hp
    | cons e rest =>
      obtain ⟨pri, current, path⟩ := e
      rw [astarLoop] at hp
      by_cases ht : current = target
      · rw [if_pos ht] at hp
        cases hp
        obtain ⟨hhd, hch, hcells⟩ := hopen (pri, current, path) (List.mem_cons_self _ _)
        exact ⟨hhd, by rw [List.getLast?_concat, ht], hch, hcells⟩
      · rw [if_neg ht] at hp
        by_cases hv : current ∈ vset
        · rw [if_pos hv] at hp
          exact ih rest gs vset (fun e' he' => hopen e' (List.mem_cons_of_mem _ he')) p hp
        · rw [if_neg hv] at hp
          simp only at hp
          refine ih _ _ _ ?_ p hp
          exact astarNbrs_spec w h g target start dirs4 (fun d hd => hd) current path
            rest gs (hopen (pri, current, path) (List.mem_cons_self _ _))
            (fun e' he' => hopen e' (List.mem_cons_of_mem _ he'))

/-- Everything `astar_pathfinding` guarantees about a returned path: it
runs from `start` (inclusive) to `target` (inclusive) through 4-connected
in-bounds cells avoiding obstacle markers. -/
lemma astar_spec (s : NavState) (start target : Int × Int) (fuel : Nat)
    (p : List (Int × Int))
    (hp : astar_pathfinding s start target fuel = some (some p)) :
    p.head? = some start ∧ p.getLast? = some target ∧ List.Chain' Adjacent p ∧
      ∀ c ∈ p, c = start ∨ GoodCell s.width s.height s.grid c := by
  apply astarLoop_sound s.width s.height s.grid target start fuel
    [((0 : Int), start, [])] [(start, (0 : Int))] [] _ p hp
  intro e he
  simp only [List.mem_singleton] at he
  subst he
  refine ⟨rfl, ?_, ?_⟩
  · simp
  · intro c hc
    simp only [List.nil_append, List.mem_singleton] at hc
    exact Or.inl hc

/-! ### Coordinate enumeration facts -/

lemma mem_allCoords {w h : Int} {c : Int × Int} :
    c ∈ allCoords w h ↔ InB w h c := by
  obtain ⟨x, y⟩ := c
  have hshow : InB w h (x, y) ↔ (0 ≤ x ∧ x < w ∧ 0 ≤ y ∧ y < h) := Iff.rfl
  rw [hshow]
  unfold allCoords
  rw [List.mem_flatMap]
  constructor
  · rintro ⟨a, ha, hmem⟩
    rw [List.mem_map] at hmem
    obtain ⟨b, hb, heq⟩ := hmem
    rw [List.mem_range] at ha hb
    injection heq with h1 h2
    rw [Int.ofNat_eq_coe] at h1 h2
    omega
  · rintro ⟨hx0, hxw, hy0, hyh⟩
    refine ⟨x.toNat, List.mem_range.2 (by omega), List.mem_map.2
      ⟨y.toNat, List.mem_range.2 (by omega), ?_⟩⟩
    rw [Prod.mk.injEq, Int.ofNat_eq_coe, Int.ofNat_eq_coe]
    constructor
    · omega
    · omega

lemma allCoords_eq_product_map (w h : Int) :
    allCoords w h
      = ((List.range w.toNat) ×ˢ (List.range h.toNat)).map
          (fun p => ((p.1 : Int), (p.2 : Int))) := by
  unfold allCoords
  show _ = ((List.range w.toNat).flatMap (fun a => (List.range h.toNat).map (Prod.mk a))).map _
  rw [List.map_flatMap]
  apply congrArg
  funext a
  rw [List.map_map]
  rfl

lemma allCoords_nodup (w h : Int) : (allCoords w h).Nodup := by
  rw [allCoords_eq_product_map]
  apply List.Nodup.map
  · intro p q hpq
    simp only [Prod.mk.injEq] at hpq
    have h1 : p.1 = q.1 := by omega
    have h2 : p.2 = q.2 := by omega
    exact Prod.ext h1 h2
  · exact (List.nodup_range _).product (List.nodup_range _)

lemma freeCoords_nodup (w h : Int) (obstacles : List (Int × Int)) :
    (freeCoords w h obstacles).Nodup :=
  (allCoords_nodup w h).filter _

lemma mem_freeCoords {w h : Int} {obstacles : List (Int × Int)} {c : Int × Int} :
    c ∈ freeCoords w h obstacles ↔ InB w h c ∧ c ∉ obstacles := by
  unfold freeCoords
  rw [List.mem_filter, mem_allCoords]
  simp

/-! ### Characterizing construction -/

lemma initGrid_wf (w h : Int) : WFGrid w h (initGrid w h) := by
  constructor
  · exact List.length_replicate _ _
  · intro row hrow
    rw [List.eq_of_mem_replicate hrow]
    exact List.length_replicate _ _

lemma cellAt_initGrid {w h : Int} {c : Int × Int} (hc : InB w h c) :
    cellAt (initGrid w h) c.1 c.2 = UNVISITED := by
  obtain ⟨x, y⟩ := c
  obtain ⟨hx0, hxw, hy0, hyh⟩ := hc
  simp only at hx0 hxw hy0 hyh
  have hy : y.toNat < (initGrid w h).length := by
    rw [(initGrid_wf w h).1]; omega
  have hrow : (initGrid w h).get? y.toNat = some (List.replicate w.toNat 0) := by
    rw [List.get?_eq_get hy]
    congr 1
    exact List.get_replicate _ _
  rw [cellAt_of_row (initGrid_wf w h) ⟨hx0, hxw, hy0, hyh⟩ hrow]
  have hx : x.toNat < w.toNat := by omega
  rw [List.get?_eq_get (by simpa using hx)]
  simp [List.get_replicate, UNVISITED]

lemma foldl_erase_eq_filter :
    ∀ (obs : List (Int × Int)) (l : List (Int × Int)), l.Nodup →
    obs.foldl List.erase l = l.filter (fun c => c ∉ obs) := by
  intro obs
  induction obs with
  | nil => intro l _; simp
  | cons o rest ih =>
    intro l hl
    rw [List.foldl_cons, ih (l.erase o) (hl.erase o)]
    rw [hl.erase_eq_filter o, List.filter_filter]
    apply List.filter_congr
    intro c _
    by_cases hco : c = o
    · subst hco
      simp
    · by_cases hcr : c ∈ rest <;> simp [hco, hcr]

lemma placeObstacles_ok {w h : Int} :
    ∀ (obs : List (Int × Int)) (g : Grid) (unvis : List (Int × Int)),
    WFGrid w h g → (∀ c ∈ obs, InB w h c) →
    ∃ g', placeObstacles (g, unvis) obs = .ok (g', obs.foldl List.erase unvis) ∧
      WFGrid w h g' ∧
      (∀ c, InB w h c →
        cellAt g' c.1 c.2 = if c ∈ obs then OBSTACLE else cellAt g c.1 c.2) := by
  intro obs
  induction obs with
  | nil =>
    intro g unvis hg _
    exact ⟨g, rfl, hg, fun c _ => by simp⟩
  | cons o rest ih =>
    intro g unvis hg hinb
    have ho : InB w h o := hinb o (List.mem_cons_self _ _)
    obtain ⟨row, hrow, _⟩ := row_of_inb hg ho
    have hset : setCell? g o.1 o.2 OBSTACLE = some (g.set o.2.toNat (row.set o.1.toNat OBSTACLE)) := by
      have := setCell_of_inb hg ho hrow OBSTACLE
      unfold setCell at this
      cases hs : setCell? g o.1 o.2 OBSTACLE with
      | none =>
        exfalso
        obtain ⟨hx0, hxw, hy0, hyh⟩ := ho
        unfold setCell? at hs
        rw [pyIdx_pos hy0 (by rw [hg.1]; omega)] at hs
        simp only [Option.some_bind, hrow] at hs
        unfold listSet? at hs
        rw [pyIdx_pos hx0 (by
          rw [hg.2 _ (List.get?_mem hrow)]; omega)] at hs
        simp at hs
      | some g2 =>
        rw [hs] at this
        simp only [Option.getD_some] at this
        rw [this]
    have hg1 : WFGrid w h (setCell g o.1 o.2 OBSTACLE) := WFGrid_setCell hg o.1 o.2 OBSTACLE
    obtain ⟨g', hrun, hwf', hchar⟩ := ih (setCell g o.1 o.2 OBSTACLE) (unvis.erase o) hg1
      (fun c hc => hinb c (List.mem_cons_of_mem _ hc))
    refine ⟨g', ?_, hwf', ?_⟩
    · have hred : placeObstacles (g, unvis) (o :: rest)
          = placeObstacles (setCell g o.1 o.2 OBSTACLE, unvis.erase o) rest := by
        rw [show placeObstacles (g, unvis) (o :: rest)
            = (match setCell? g o.1 o.2 OBSTACLE with
               | none => .error .indexError
               | some g2 => placeObstacles (g2, unvis.erase o) rest) from rfl]
        rw [hset, ← setCell_of_inb hg ho hrow OBSTACLE]
      rw [hred, hrun, List.foldl_cons]
    · intro c hc
      rw [hchar c hc]
      by_cases hc1 : c ∈ o :: rest
      · rcases List.mem_cons.1 hc1 with hc2 | hc2
        · subst hc2
          by_cases hcr : c ∈ rest
          · simp [hcr, hc1]
          · rw [if_neg hcr, if_pos hc1]
            exact cellAt_setCell_self hg hc OBSTACLE
        · simp [hc2, hc1]
      · have hc2 : c ∉ rest := fun hx => hc1 (List.mem_cons_of_mem _ hx)
        have hc3 : c ≠ o := fun hx => hc1 (hx ▸ List.mem_cons_self _ _)
        rw [if_neg hc2, if_neg hc1]
        exact cellAt_setCell_ne hg ho hc hc3 OBSTACLE

lemma placeDyn_ok {w h : Int} :
    ∀ (dyn : List (Int × Int)) (g g' : Grid) (ds : List (Int × Int)),
    WFGrid w h g →
    placeDyn w h g dyn = .ok (g', ds) →
    ds = dyn ∧ WFGrid w h g' ∧
      (∀ c ∈ dyn, InB w h c ∧ cellAt g c.1 c.2 = UNVISITED) ∧
      (∀ c, InB w h c → c ∉ dyn → cellAt g' c.1 c.2 = cellAt g c.1 c.2) ∧
      (∀ c ∈ dyn, cellAt g' c.1 c.2 = DYNAMIC_OBSTACLE) := by
  intro dyn
  induction dyn with
  | nil =>
    intro g g' ds hg hrun
    rw [show placeDyn w h g [] = .ok (g, []) from rfl] at hrun
    injection hrun with hrun
    injection hrun with h1 h2
    subst h1; subst h2
    exact ⟨rfl, hg, by simp, fun c _ _ => rfl, by simp⟩
  | cons c rest ih =>
    intro g g' ds hg hrun
    rw [show placeDyn w h g (c :: rest)
        = (if w ≤ 0 ∨ h ≤ 0 then .error .valueError
           else if InB w h c ∧ cellAt g c.1 c.2 = UNVISITED then
             match placeDyn w h (setCell g c.1 c.2 DYNAMIC_OBSTACLE) rest with
             | .ok (g2, ds2) => .ok (g2, c :: ds2)
             | .error e => .error e
           else .error .valueError) from rfl] at hrun
    by_cases h0 : w ≤ 0 ∨ h ≤ 0
    · rw [if_pos h0] at hrun; exact absurd hrun (by simp)
    rw [if_neg h0] at hrun
    by_cases h1 : InB w h c ∧ cellAt g c.1 c.2 = UNVISITED
    · rw [if_pos h1] at hrun
      cases hrec : placeDyn w h (setCell g c.1 c.2 DYNAMIC_OBSTACLE) rest with
      | error e => rw [hrec] at hrun; exact absurd hrun (by simp)
      | ok r =>
        obtain ⟨g2, ds2⟩ := r
        rw [hrec] at hrun
        simp only at hrun
        injection hrun with hrun
        injection hrun with he1 he2
        subst he1
        have hg1 : WFGrid w h (setCell g c.1 c.2 DYNAMIC_OBSTACLE) :=
          WFGrid_setCell hg c.1 c.2 DYNAMIC_OBSTACLE
        obtain ⟨hds, hwf2, hmem, hunch, hmark⟩ := ih _ g2 ds2 hg1 hrec
        have hcnotrest : c ∉ rest := by
          intro hcr
          have := (hmem c hcr).2
          rw [cellAt_setCell_self hg h1.1 DYNAMIC_OBSTACLE] at this
          simp [DYNAMIC_OBSTACLE, UNVISITED] at this
        refine ⟨by rw [← he2, hds], hwf2, ?_, ?_, ?_⟩
        · intro c' hc'
          rcases List.mem_cons.1 hc' with hc2 | hc2
          · subst hc2; exact h1
          · obtain ⟨hinb2, hval2⟩ := hmem c' hc2
            refine ⟨hinb2, ?_⟩
            have hne : c' ≠ c := by
              intro he
              rw [he, cellAt_setCell_self hg h1.1 DYNAMIC_OBSTACLE] at hval2
              simp [DYNAMIC_OBSTACLE, UNVISITED] at hval2
            rw [cellAt_setCell_ne hg h1.1 hinb2 hne DYNAMIC_OBSTACLE] at hval2
            exact hval2
        · intro c' hinb2 hnot
          have hnr : c' ∉ rest := fun hx => hnot (List.mem_cons_of_mem _ hx)
          have hne : c' ≠ c := fun hx => hnot (hx ▸ List.mem_cons_self _ _)
          rw [hunch c' hinb2 hnr]
          exact cellAt_setCell_ne hg h1.1 hinb2 hne DYNAMIC_OBSTACLE
        · intro c' hc'
          rcases List.mem_cons.1 hc' with hc2 | hc2
          · subst hc2
            rw [hunch c' h1.1 hcnotrest]
            exact cellAt_setCell_self hg h1.1 DYNAMIC_OBSTACLE
          · exact hmark c' hc2
    · rw [if_neg h1] at hrun; exact absurd hrun (by simp)

lemma setCell?_zero_facts {g : Grid} {v : Int} {g' : Grid}
    (hs : setCell? g 0 0 v = some g') :
    0 < g.length ∧ ∃ row, g.get? 0 = some row ∧ 0 < row.length ∧
      g' = g.set 0 (row.set 0 v) := by
  unfold setCell? at hs
  rcases Option.bind_eq_some.1 hs with ⟨yi, hyi, hs2⟩
  rcases Option.bind_eq_some.1 hs2 with ⟨row, hrow, hs3⟩
  unfold listSet? at hs3
  rcases Option.map_eq_some'.1 hs3 with ⟨row', hrow', hset⟩
  rcases Option.map_eq_some'.1 hrow' with ⟨xi, hxi, hroweq⟩
  have hylen : 0 < g.length ∧ yi = 0 := by
    unfold pyIdx at hyi
    split_ifs at hyi with hcond hcond2
    · injection hyi with hyi
      constructor
      · omega
      · omega
    · omega
  have hxlen : 0 < row.length ∧ xi = 0 := by
    unfold pyIdx at hxi
    split_ifs at hxi with hcond hcond2
    · injection hxi with hxi
      constructor
      · omega
      · omega
    · omega
  obtain ⟨hgl, hyi0⟩ := hylen
  obtain ⟨hrl, hxi0⟩ := hxlen
  subst hyi0
  subst hxi0
  rw [← hset, ← hroweq]
  exact ⟨hgl, row, hrow, hrl, rfl⟩

lemma initUnvisited_nodup (w h : Int) : (initUnvisited w h).Nodup :=
  (allCoords_nodup w h).filter _

lemma nodup_erase_eq_filter_decide {α : Type} [DecidableEq α] :
    ∀ (l : List α), l.Nodup → ∀ (a : α),
      l.erase a = l.filter (fun x => decide (x ≠ a)) := by
  intro l
  induction l with
  | nil => intro _ a; rfl
  | cons b t ih =>
    intro hl a
    rw [List.erase_cons, List.filter_cons]
    by_cases hba : b = a
    · subst hba
      have hbt : b ∉ t := (List.nodup_cons.1 hl).1
      rw [if_pos (by simp : (b == b) = true)]
      rw [if_neg (by simp : ¬(decide (b ≠ b) = true))]
      symm
      apply List.filter_eq_self.2
      intro x hx
      simp only [decide_eq_true_eq]
      intro hxb
      exact hbt (hxb ▸ hx)
    · rw [if_neg (by simp [hba] : ¬((b == a) = true))]
      rw [if_pos (by simp [hba] : decide (b ≠ a) = true)]
      rw [ih (List.nodup_cons.1 hl).2 a]

lemma init_navInv {w h : Int} {obstacles dyn : List (Int × Int)} {s : NavState}
    (hgo : GoodObstacles w h obstacles)
    (hinit : RobotNavigation_init w h obstacles dyn = .ok s) :
    NavInv w h obstacles s := by
  obtain ⟨hnd, hobinb, h00⟩ := hgo
  obtain ⟨g1, hpo, hwf1, hchar1⟩ := placeObstacles_ok obstacles (initGrid w h)
    (initUnvisited w h) (initGrid_wf w h) hobinb
  unfold RobotNavigation_init at hinit
  rw [hpo] at hinit
  dsimp only at hinit
  cases hpd : placeDyn w h g1 dyn with
  | error e => rw [hpd] at hinit; simp at hinit
  | ok r2 =>
    obtain ⟨g2, ds⟩ := r2
    rw [hpd] at hinit
    dsimp only at hinit
    obtain ⟨hds, hwf2, hmem, hunch, hmark⟩ := placeDyn_ok dyn g1 g2 ds hwf1 hpd
    subst hds
    cases hrm : setCell? g2 0 0 ROBOT with
    | none => rw [hrm] at hinit; simp at hinit
    | some g3 =>
      rw [hrm] at hinit
      simp only [Except.ok.injEq] at hinit
      subst hinit
      obtain ⟨hgl, row0, hrow0, hrl, _⟩ := setCell?_zero_facts hrm
      have hposw : 0 < w ∧ 0 < h := by
        have h1 : g2.length = h.toNat := hwf2.1
        have h2 : row0.length = w.toNat := hwf2.2 _ (List.get?_mem hrow0)
        omega
      have hInB00 : InB w h ((0 : Int), (0 : Int)) :=
        ⟨le_refl 0, hposw.1, le_refl 0, hposw.2⟩
      have hg3 : setCell g2 0 0 ROBOT = g3 := by
        unfold setCell
        rw [hrm]
        rfl
      have hwf3 : WFGrid w h g3 := hg3 ▸ WFGrid_setCell hwf2 0 0 ROBOT
      have hat00 : cellAt g3 0 0 = ROBOT := by
        rw [← hg3]
        exact cellAt_setCell_self hwf2 hInB00 ROBOT
      have hat3 : ∀ c : Int × Int, InB w h c → c ≠ (0, 0) →
          cellAt g3 c.1 c.2 = cellAt g2 c.1 c.2 := by
        intro c hc hne
        rw [← hg3]
        exact cellAt_setCell_ne hwf2 hInB00 hc hne ROBOT
      have hdynfree : ∀ o ∈ ds, InB w h o ∧ o ∉ obstacles := by
        intro o ho
        obtain ⟨hinb, hval⟩ := hmem o ho
        refine ⟨hinb, fun hmemo => ?_⟩
        rw [hchar1 o hinb, if_pos hmemo] at hval
        simp [OBSTACLE, UNVISITED] at hval
      have hunvis : obstacles.foldl List.erase (initUnvisited w h)
          = (initUnvisited w h).filter (fun c => c ∉ obstacles) :=
        foldl_erase_eq_filter obstacles (initUnvisited w h) (initUnvisited_nodup w h)
      constructor
      · rfl
      · rfl
      · exact hposw
      · exact hwf3
      · -- hperm
        simp only [hunvis]
        have h00free : ((0 : Int), (0 : Int)) ∈ freeCoords w h obstacles :=
          mem_freeCoords.2 ⟨hInB00, h00⟩
        have e1 := List.perm_cons_erase h00free
        rw [nodup_erase_eq_filter_decide _ (freeCoords_nodup w h obstacles)
          ((0, 0) : Int × Int)] at e1
        have e3 : (freeCoords w h obstacles).filter (fun c => decide (c ≠ (0, 0)))
            = (initUnvisited w h).filter (fun c => decide (c ∉ obstacles)) := by
          unfold freeCoords initUnvisited
          rw [List.filter_filter, List.filter_filter]
          apply List.filter_congr
          intro c _
          by_cases h1 : c = (0, 0) <;> by_cases h2 : c ∈ obstacles <;>
            simp [h1, h2]
        rw [List.singleton_append, ← e3]
        exact e1.symm
      · -- hobs
        intro c hc
        by_cases h1 : c = (0, 0)
        · subst h1
          rw [show ((0 : Int), (0 : Int)).1 = (0 : Int) from rfl,
            show ((0 : Int), (0 : Int)).2 = (0 : Int) from rfl, hat00]
          simp only [ROBOT, OBSTACLE]
          constructor
          · omega
          · intro hcon; exact absurd hcon h00
        · rw [hat3 c hc h1]
          by_cases h2 : c ∈ ds
          · rw [hmark c h2]
            simp only [DYNAMIC_OBSTACLE, OBSTACLE]
            constructor
            · omega
            · intro hcon
              exact absurd hcon (hdynfree c h2).2
          · rw [hunch c hc h2, hchar1 c hc]
            by_cases h3 : c ∈ obstacles
            · simp [h3]
            · rw [if_neg h3, cellAt_initGrid hc]
              simp only [UNVISITED, OBSTACLE]
              constructor
              · omega
              · intro hcon; exact absurd hcon h3
      · -- hzero
        intro c hc hval
        by_cases h1 : c = (0, 0)
        · subst h1
          rw [show ((0 : Int), (0 : Int)).1 = (0 : Int) from rfl,
            show ((0 : Int), (0 : Int)).2 = (0 : Int) from rfl, hat00] at hval
          simp [ROBOT, UNVISITED] at hval
        · rw [hat3 c hc h1] at hval
          by_cases h2 : c ∈ ds
          · rw [hmark c h2] at hval
            simp [DYNAMIC_OBSTACLE, UNVISITED] at hval
          · rw [hunch c hc h2, hchar1 c hc] at hval
            by_cases h3 : c ∈ obstacles
            · rw [if_pos h3] at hval
              simp [OBSTACLE, UNVISITED] at hval
            · simp only [hunvis]
              rw [List.mem_filter]
              unfold initUnvisited
              rw [List.mem_filter, mem_allCoords]
              refine ⟨⟨hc, by simpa using h1⟩, by simpa using h3⟩
      · exact List.mem_singleton.2 rfl
      · exact hdynfree

/-! ### Invariant preservation -/

lemma navInv_append_nodup {w h : Int} {obstacles : List (Int × Int)} {s : NavState}
    (inv : NavInv w h obstacles s) :
    (s.visited_cells ++ s.unvisited_cells).Nodup :=
  inv.hperm.nodup_iff.2 (freeCoords_nodup w h obstacles)

lemma navInv_disjoint {w h : Int} {obstacles : List (Int × Int)} {s : NavState}
    (inv : NavInv w h obstacles s) {c : Int × Int}
    (h1 : c ∈ s.visited_cells) (h2 : c ∈ s.unvisited_cells) : False := by
  have := navInv_append_nodup inv
  rw [List.nodup_append] at this
  exact this.2.2 h1 h2

lemma navInv_mem_free {w h : Int} {obstacles : List (Int × Int)} {s : NavState}
    (inv : NavInv w h obstacles s) {c : Int × Int}
    (hm : c ∈ s.visited_cells ∨ c ∈ s.unvisited_cells) :
    InB w h c ∧ c ∉ obstacles := by
  have : c ∈ s.visited_cells ++ s.unvisited_cells := List.mem_append.2 hm
  exact mem_freeCoords.1 (inv.hperm.mem_iff.1 this)

lemma stepOneObstacle_inv {w h : Int} {obstacles : List (Int × Int)}
    {visited unvisited : List (Int × Int)} {g : Grid} {pos : Int × Int}
    (hg : WFGrid w h g)
    (hobs : ∀ c, InB w h c → (cellAt g c.1 c.2 = OBSTACLE ↔ c ∈ obstacles))
    (hzero : ∀ c, InB w h c → cellAt g c.1 c.2 = UNVISITED → c ∈ unvisited)
    (hpos : InB w h pos) (hposobs : pos ∉ obstacles) (dirs : List (Int × Int)) :
    WFGrid w h (stepOneObstacle w h visited unvisited g pos dirs).1 ∧
    (∀ c, InB w h c →
      (cellAt (stepOneObstacle w h visited unvisited g pos dirs).1 c.1 c.2 = OBSTACLE
        ↔ c ∈ obstacles)) ∧
    (∀ c, InB w h c →
      cellAt (stepOneObstacle w h visited unvisited g pos dirs).1 c.1 c.2 = UNVISITED →
      c ∈ unvisited) ∧
    InB w h (stepOneObstacle w h visited unvisited g pos dirs).2 ∧
    (stepOneObstacle w h visited unvisited g pos dirs).2 ∉ obstacles := by
  have hmain : ∀ (v : Int), v ≠ OBSTACLE → (v = UNVISITED → pos ∈ unvisited) →
      ∀ (r : Grid × (Int × Int)),
      (r = match dirs.find? (fun d =>
          decide (InB w h (pos.1 + d.1, pos.2 + d.2) ∧
            (cellAt (setCell g pos.1 pos.2 v) (pos.1 + d.1) (pos.2 + d.2) = UNVISITED ∨
             cellAt (setCell g pos.1 pos.2 v) (pos.1 + d.1) (pos.2 + d.2) = VISITED ∨
             cellAt (setCell g pos.1 pos.2 v) (pos.1 + d.1) (pos.2 + d.2) = RETRACED_PATH) ∧
            cellAt (setCell g pos.1 pos.2 v) (pos.1 + d.1) (pos.2 + d.2) ≠ ROBOT)) with
        | some d => (setCell (setCell g pos.1 pos.2 v) (pos.1 + d.1) (pos.2 + d.2)
            DYNAMIC_OBSTACLE, (pos.1 + d.1, pos.2 + d.2))
        | none => (setCell g pos.1 pos.2 v, pos)) →
      WFGrid w h r.1 ∧
      (∀ c, InB w h c → (cellAt r.1 c.1 c.2 = OBSTACLE ↔ c ∈ obstacles)) ∧
      (∀ c, InB w h c → cellAt r.1 c.1 c.2 = UNVISITED → c ∈ unvisited) ∧
      InB w h r.2 ∧ r.2 ∉ obstacles := by
    intro v hv2 hv0 r hr
    have hwf1 : WFGrid w h (setCell g pos.1 pos.2 v) := WFGrid_setCell hg _ _ v
    have hobs1 : ∀ c, InB w h c →
        (cellAt (setCell g pos.1 pos.2 v) c.1 c.2 = OBSTACLE ↔ c ∈ obstacles) := by
      intro c hc
      by_cases hcp : c = pos
      · subst hcp
        rw [cellAt_setCell_self hg hc v]
        exact ⟨fun hx => absurd hx hv2, fun hx => absurd hx hposobs⟩
      · rw [cellAt_setCell_ne hg hpos hc hcp v]
        exact hobs c hc
    have hzero1 : ∀ c, InB w h c →
        cellAt (setCell g pos.1 pos.2 v) c.1 c.2 = UNVISITED → c ∈ unvisited := by
      intro c hc hval
      by_cases hcp : c = pos
      · subst hcp
        rw [cellAt_setCell_self hg hc v] at hval
        exact hv0 hval
      · rw [cellAt_setCell_ne hg hpos hc hcp v] at hval
        exact hzero c hc hval
    cases hfind : dirs.find? (fun d =>
        decide (InB w h (pos.1 + d.1, pos.2 + d.2) ∧
          (cellAt (setCell g pos.1 pos.2 v) (pos.1 + d.1) (pos.2 + d.2) = UNVISITED ∨
           cellAt (setCell g pos.1 pos.2 v) (pos.1 + d.1) (pos.2 + d.2) = VISITED ∨
           cellAt (setCell g pos.1 pos.2 v) (pos.1 + d.1) (pos.2 + d.2) = RETRACED_PATH) ∧
          cellAt (setCell g pos.1 pos.2 v) (pos.1 + d.1) (pos.2 + d.2) ≠ ROBOT)) with
    | none =>
      rw [hfind] at hr
      subst hr
      exact ⟨hwf1, hobs1, hzero1, hpos, hposobs⟩
    | some d =>
      rw [hfind] at hr
      subst hr
      have hpred := List.find?_some hfind
      rw [decide_eq_true_eq] at hpred
      obtain ⟨hnbin, hnbval, _⟩ := hpred
      have hnbobs : (pos.1 + d.1, pos.2 + d.2) ∉ obstacles := by
        intro hmem
        have := (hobs1 _ hnbin).2 hmem
        rcases hnbval with hx | hx | hx <;> rw [this] at hx <;>
          simp [OBSTACLE, UNVISITED, VISITED, RETRACED_PATH] at hx
      refine ⟨WFGrid_setCell hwf1 _ _ _, ?_, ?_, hnbin, hnbobs⟩
      · intro c hc
        by_cases hcn : c = (pos.1 + d.1, pos.2 + d.2)
        · subst hcn
          rw [cellAt_setCell_self hwf1 hc DYNAMIC_OBSTACLE]
          constructor
          · intro hx; simp [DYNAMIC_OBSTACLE, OBSTACLE] at hx
          · intro hx; exact absurd hx hnbobs
        · rw [cellAt_setCell_ne hwf1 hnbin hc hcn DYNAMIC_OBSTACLE]
          exact hobs1 c hc
      · intro c hc hval
        by_cases hcn : c = (pos.1 + d.1, pos.2 + d.2)
        · subst hcn
          rw [cellAt_setCell_self hwf1 hc DYNAMIC_OBSTACLE] at hval
          simp [DYNAMIC_OBSTACLE, UNVISITED] at hval
        · rw [cellAt_setCell_ne hwf1 hnbin hc hcn DYNAMIC_OBSTACLE] at hval
          exact hzero1 c hc hval
  by_cases hv : pos ∈ visited
  · have : stepOneObstacle w h visited unvisited g pos dirs
        = stepOneObstacle w h visited unvisited g pos dirs := rfl
    apply hmain VISITED (by simp [VISITED, OBSTACLE]) (by simp [VISITED, UNVISITED])
    simp only [stepOneObstacle, if_pos hv]
  · by_cases hu : pos ∉ unvisited
    · apply hmain RETRACED_PATH (by simp [RETRACED_PATH, OBSTACLE])
        (by simp [RETRACED_PATH, UNVISITED])
      simp only [stepOneObstacle, if_neg hv, if_pos hu]
    · apply hmain UNVISITED (by simp [UNVISITED, OBSTACLE])
        (fun _ => by simpa using hu)
      simp only [stepOneObstacle, if_neg hv, if_neg hu]

lemma moveDynLoop_inv {w h : Int} {obstacles : List (Int × Int)}
    {visited unvisited : List (Int × Int)} {shuffle : Nat → List (Int × Int)} :
    ∀ (ds : List (Int × Int)) (g : Grid) (i : Nat),
    WFGrid w h g →
    (∀ c, InB w h c → (cellAt g c.1 c.2 = OBSTACLE ↔ c ∈ obstacles)) →
    (∀ c, InB w h c → cellAt g c.1 c.2 = UNVISITED → c ∈ unvisited) →
    (∀ o ∈ ds, InB w h o ∧ o ∉ obstacles) →
    WFGrid w h (moveDynLoop w h visited unvisited shuffle g ds i).1 ∧
    (∀ c, InB w h c →
      (cellAt (moveDynLoop w h visited unvisited shuffle g ds i).1 c.1 c.2 = OBSTACLE
        ↔ c ∈ obstacles)) ∧
    (∀ c, InB w h c →
      cellAt (moveDynLoop w h visited unvisited shuffle g ds i).1 c.1 c.2 = UNVISITED →
      c ∈ unvisited) ∧
    (∀ o ∈ (moveDynLoop w h visited unvisited shuffle g ds i).2,
      InB w h o ∧ o ∉ obstacles) := by
  intro ds
  induction ds with
  | nil =>
    intro g i hg hobs hzero _
    exact ⟨hg, hobs, hzero, by simp [moveDynLoop]⟩
  | cons o rest ih =>
    intro g i hg hobs hzero hds
    have ho := hds o (List.mem_cons_self _ _)
    obtain ⟨hwf1, hobs1, hzero1, hin1, hnotobs1⟩ :=
      stepOneObstacle_inv hg hobs hzero ho.1 ho.2 (shuffle i)
    obtain ⟨hwf2, hobs2, hzero2, hds2⟩ :=
      ih (stepOneObstacle w h visited unvisited g o (shuffle i)).1 (i + 1)
        hwf1 hobs1 hzero1 (fun o' ho' => hds o' (List.mem_cons_of_mem _ ho'))
    rw [show moveDynLoop w h visited unvisited shuffle g (o :: rest) i
        = ((moveDynLoop w h visited unvisited shuffle
              (stepOneObstacle w h visited unvisited g o (shuffle i)).1 rest (i + 1)).1,
           (stepOneObstacle w h visited unvisited g o (shuffle i)).2
            :: (moveDynLoop w h visited unvisited shuffle
              (stepOneObstacle w h visited unvisited g o (shuffle i)).1 rest (i + 1)).2)
      from rfl]
    refine ⟨hwf2, hobs2, hzero2, ?_⟩
    intro o' ho'
    rcases List.mem_cons.1 ho' with ho2 | ho2
    · subst ho2; exact ⟨hin1, hnotobs1⟩
    · exact hds2 o' ho2

lemma stepDyn_navInv {w h : Int} {obstacles : List (Int × Int)} {s : NavState}
    (inv : NavInv w h obstacles s) (shuffle : Nat → List (Int × Int)) :
    NavInv w h obstacles (move_dynamic_obstacles s shuffle) := by
  obtain ⟨hw, hh, hpos, hwf, hperm, hobs, hzero, hrobot, hdyn⟩ := inv
  subst hw
  subst hh
  obtain ⟨hwf2, hobs2, hzero2, hds2⟩ :=
    @moveDynLoop_inv _ _ obstacles s.visited_cells _ shuffle
      s.dynamic_obstacles s.grid 0 hwf hobs hzero hdyn
  exact ⟨rfl, rfl, hpos, hwf2, hperm, hobs2, hzero2, hrobot, hds2⟩

lemma recolor_char {w h : Int} :
    ∀ (cells : List (Int × Int)) (g : Grid), WFGrid w h g →
    (∀ c ∈ cells, InB w h c) →
    WFGrid w h (recolorPath g cells) ∧
    ∀ c, InB w h c →
      cellAt (recolorPath g cells) c.1 c.2 = cellAt g c.1 c.2 ∨
      (cellAt (recolorPath g cells) c.1 c.2 = RETRACED_PATH ∧
        cellAt g c.1 c.2 = VISITED) := by
  intro cells
  induction cells with
  | nil => intro g hg _; exact ⟨hg, fun c _ => Or.inl rfl⟩
  | cons c0 rest ih =>
    intro g hg hcells
    have hc0 : InB w h c0 := hcells c0 (List.mem_cons_self _ _)
    have hstep : recolorPath g (c0 :: rest)
        = recolorPath (if cellAt g c0.1 c0.2 = VISITED
            then setCell g c0.1 c0.2 RETRACED_PATH else g) rest := by
      unfold recolorPath
      rw [List.foldl_cons]
    have hgmid : WFGrid w h (if cellAt g c0.1 c0.2 = VISITED
        then setCell g c0.1 c0.2 RETRACED_PATH else g) := by
      split_ifs
      · exact WFGrid_setCell hg _ _ _
      · exact hg
    have hmid : ∀ c, InB w h c →
        cellAt (if cellAt g c0.1 c0.2 = VISITED
          then setCell g c0.1 c0.2 RETRACED_PATH else g) c.1 c.2 = cellAt g c.1 c.2 ∨
        (cellAt (if cellAt g c0.1 c0.2 = VISITED
          then setCell g c0.1 c0.2 RETRACED_PATH else g) c.1 c.2 = RETRACED_PATH ∧
          cellAt g c.1 c.2 = VISITED) := by
      intro c hc
      split_ifs with hv
      · by_cases hcc : c = c0
        · subst hcc
          rw [cellAt_setCell_self hg hc RETRACED_PATH]
          exact Or.inr ⟨rfl, hv⟩
        · rw [cellAt_setCell_ne hg hc0 hc hcc RETRACED_PATH]
          exact Or.inl rfl
      · exact Or.inl rfl
    obtain ⟨hwf', hchar'⟩ := ih _ hgmid (fun c hc => hcells c (List.mem_cons_of_mem _ hc))
    rw [hstep]
    refine ⟨hwf', ?_⟩
    intro c hc
    rcases hchar' c hc with h1 | ⟨h1, h2⟩
    · rw [h1]
      exact hmid c hc
    · rcases hmid c hc with h3 | ⟨h3, h4⟩
      · rw [h3] at h2
        exact Or.inr ⟨h1, h2⟩
      · exact Or.inr ⟨h1, h4⟩

lemma erase_beq_instances (l : List (Int × Int)) (a : Int × Int) :
    @List.erase (Int × Int) instBEqProd l a
      = @List.erase (Int × Int) instBEqOfDecidableEq l a := by
  induction l with
  | nil => rfl
  | cons b t ih =>
    rw [@List.erase_cons (Int × Int) instBEqProd,
      @List.erase_cons (Int × Int) instBEqOfDecidableEq, ih]
    by_cases hba : b = a
    · subst hba
      rw [show (@BEq.beq (Int × Int) instBEqProd b b) = true from by simp,
        show (@BEq.beq (Int × Int) instBEqOfDecidableEq b b) = true from by
          show decide (b = b) = true
          simp]
    · rw [show (@BEq.beq (Int × Int) instBEqProd b a) = false from by simp [hba],
        show (@BEq.beq (Int × Int) instBEqOfDecidableEq b a) = false from by
          show decide (b = a) = false
          simp [hba]]

lemma moveRobot_navInv {w h : Int} {obstacles : List (Int × Int)} {s : NavState}
    {fuel : Nat} {p : List (Int × Int)}
    (inv : NavInv w h obstacles s)
    (hp : find_most_efficient_path s fuel = some (some p)) :
    NavInv w h obstacles (move_robot s p).1 := by
  have hspec := find_path_spec s fuel p hp
  obtain ⟨hw, hh, hpos, hwf, hperm, hobs, hzero, hrobot, hdyn⟩ := inv
  subst hw
  subst hh
  obtain ⟨hne, hchain, hnost, hgood, hlast, hfirst⟩ := hspec
  cases hpc : p with
  | nil => exact absurd hpc hne
  | cons c0 rest =>
    subst hpc
    set lastc := rest.getLastD c0 with hlastc
    have hlastmem : lastc ∈ s.unvisited_cells := by
      apply hlast
      rw [getLast?_cons_eq]
    have hlastfree : InB s.width s.height lastc ∧ lastc ∉ obstacles := by
      refine navInv_mem_free ?_ (Or.inr hlastmem)
      exact ⟨rfl, rfl, hpos, hwf, hperm, hobs, hzero, hrobot, hdyn⟩
    have hrobfree : InB s.width s.height s.robot_pos ∧ s.robot_pos ∉ obstacles := by
      refine navInv_mem_free ?_ (Or.inl hrobot)
      exact ⟨rfl, rfl, hpos, hwf, hperm, hobs, hzero, hrobot, hdyn⟩
    have hlastne : lastc ≠ s.robot_pos := by
      intro he
      apply hnost
      rw [← he]
      have : lastc ∈ c0 :: rest := by
        rcases List.mem_cons.1 (List.mem_of_mem_getLast?
          (getLast?_cons_eq c0 rest)) with hx | hx
        · exact hx ▸ List.mem_cons_self _ _
        · exact List.mem_cons_of_mem _ hx
      exact this
    have hdropin : ∀ c ∈ (c0 :: rest).dropLast, InB s.width s.height c := by
      intro c hc
      exact (hgood c (List.dropLast_subset _ hc)).1
    obtain ⟨hwf1, hchar1⟩ := recolor_char (c0 :: rest).dropLast s.grid hwf hdropin
    have hobs1 : ∀ c, InB s.width s.height c →
        (cellAt (recolorPath s.grid (c0 :: rest).dropLast) c.1 c.2 = OBSTACLE
          ↔ c ∈ obstacles) := by
      intro c hc
      rcases hchar1 c hc with h1 | ⟨h1, h2⟩
      · rw [h1]; exact hobs c hc
      · rw [h1]
        constructor
        · intro hx; simp [RETRACED_PATH, OBSTACLE] at hx
        · intro hx
          rw [(hobs c hc).2 hx] at h2
          simp [OBSTACLE, VISITED] at h2
    have hzero1 : ∀ c, InB s.width s.height c →
        cellAt (recolorPath s.grid (c0 :: rest).dropLast) c.1 c.2 = UNVISITED →
        c ∈ s.unvisited_cells := by
      intro c hc hval
      rcases hchar1 c hc with h1 | ⟨h1, _⟩
      · rw [h1] at hval; exact hzero c hc hval
      · rw [h1] at hval; simp [RETRACED_PATH, UNVISITED] at hval
    rw [show (move_robot s (c0 :: rest)).1
        = (if cellAt (recolorPath s.grid (c0 :: rest).dropLast) lastc.1 lastc.2
              = DYNAMIC_OBSTACLE then
            { s with grid := recolorPath s.grid (c0 :: rest).dropLast }
          else
            { s with
                grid := setCell (setCell (recolorPath s.grid (c0 :: rest).dropLast)
                    s.robot_pos.1 s.robot_pos.2 VISITED) lastc.1 lastc.2 ROBOT
                robot_pos := lastc
                unvisited_cells := s.unvisited_cells.erase lastc
                visited_cells :=
                  if lastc ∈ s.visited_cells then s.visited_cells
                  else s.visited_cells ++ [lastc] }) from by
      unfold move_robot
      dsimp only
      split_ifs <;> rfl]
    by_cases hblocked : cellAt (recolorPath s.grid (c0 :: rest).dropLast)
        lastc.1 lastc.2 = DYNAMIC_OBSTACLE
    · rw [if_pos hblocked]
      exact ⟨rfl, rfl, hpos, hwf1, hperm, hobs1, hzero1, hrobot, hdyn⟩
    · rw [if_neg hblocked]
      have hlastnotvis : lastc ∉ s.visited_cells := by
        intro hx
        exact navInv_disjoint ⟨rfl, rfl, hpos, hwf, hperm, hobs, hzero, hrobot, hdyn⟩
          hx hlastmem
      rw [if_neg hlastnotvis]
      have hwf2 : WFGrid s.width s.height (setCell (recolorPath s.grid
          (c0 :: rest).dropLast) s.robot_pos.1 s.robot_pos.2 VISITED) :=
        WFGrid_setCell hwf1 _ _ _
      have hwf3 : WFGrid s.width s.height (setCell (setCell (recolorPath s.grid
          (c0 :: rest).dropLast) s.robot_pos.1 s.robot_pos.2 VISITED)
          lastc.1 lastc.2 ROBOT) :=
        WFGrid_setCell hwf2 _ _ _
      have hat : ∀ c, InB s.width s.height c →
          cellAt (setCell (setCell (recolorPath s.grid (c0 :: rest).dropLast)
              s.robot_pos.1 s.robot_pos.2 VISITED) lastc.1 lastc.2 ROBOT) c.1 c.2
            = (if c = lastc then ROBOT else if c = s.robot_pos then VISITED
               else cellAt (recolorPath s.grid (c0 :: rest).dropLast) c.1 c.2) := by
        intro c hc
        by_cases h1 : c = lastc
        · subst h1
          rw [if_pos rfl]
          exact cellAt_setCell_self hwf2 hc ROBOT
        · rw [if_neg h1, cellAt_setCell_ne hwf2 hlastfree.1 hc h1 ROBOT]
          by_cases h2 : c = s.robot_pos
          · subst h2
            rw [if_pos rfl]
            exact cellAt_setCell_self hwf1 hc VISITED
          · rw [if_neg h2, cellAt_setCell_ne hwf1 hrobfree.1 hc h2 VISITED]
      refine ⟨rfl, rfl, hpos, hwf3, ?_, ?_, ?_, ?_, hdyn⟩
      · -- hperm
        show ((s.visited_cells ++ [lastc]) ++ s.unvisited_cells.erase lastc).Perm
          (freeCoords s.width s.height obstacles)
        have e1 : (s.visited_cells ++ [lastc]) ++ s.unvisited_cells.erase lastc
            = s.visited_cells ++ (lastc :: s.unvisited_cells.erase lastc) := by
          rw [List.append_assoc]
          rfl
        rw [e1]
        rw [erase_beq_instances]
        have e2 : (s.visited_cells
              ++ (lastc :: @List.erase (Int × Int) instBEqOfDecidableEq
                    s.unvisited_cells lastc)).Perm
            (s.visited_cells ++ s.unvisited_cells) :=
          List.Perm.append_left s.visited_cells (List.perm_cons_erase hlastmem).symm
        exact e2.trans hperm
      · -- hobs
        intro c hc
        rw [hat c hc]
        by_cases h1 : c = lastc
        · subst h1
          rw [if_pos rfl]
          constructor
          · intro hx; simp [ROBOT, OBSTACLE] at hx
          · intro hx; exact absurd hx hlastfree.2
        · rw [if_neg h1]
          by_cases h2 : c = s.robot_pos
          · subst h2
            rw [if_pos rfl]
            constructor
            · intro hx; simp [VISITED, OBSTACLE] at hx
            · intro hx; exact absurd hx hrobfree.2
          · rw [if_neg h2]
            exact hobs1 c hc
      · -- hzero
        intro c hc hval
        rw [hat c hc] at hval
        by_cases h1 : c = lastc
        · rw [if_pos h1] at hval; simp [ROBOT, UNVISITED] at hval
        · rw [if_neg h1] at hval
          by_cases h2 : c = s.robot_pos
          · rw [if_pos h2] at hval; simp [VISITED, UNVISITED] at hval
          · rw [if_neg h2] at hval
            show c ∈ s.unvisited_cells.erase lastc
            exact (List.mem_erase_of_ne h1).2 (hzero1 c hc hval)
      · -- hrobot
        exact List.mem_append_right _ (List.mem_singleton.2 rfl)

/-- Every reachable state of a `demo.py` session satisfies the session
invariant. -/
lemma reachable_navInv {w h : Int} {obstacles : List (Int × Int)} {s : NavState}
    (hgo : GoodObstacles w h obstacles) (hr : Reachable w h obstacles s) :
    NavInv w h obstacles s := by
  induction hr with
  | init dyn s hinit => exact init_navInv hgo hinit
  | stepDyn s shuffle _ _ ih => exact stepDyn_navInv ih shuffle
  | stepMove s p fuel _ hp ih => exact moveRobot_navInv ih hp

/-! ### Counting free cells -/

lemma sum_map_eq_sum_range {α : Type} (f : α → Nat) (d : α) :
    ∀ (l : List α), (l.map f).sum = ∑ i ∈ Finset.range l.length, f (l.getD i d) := by
  intro l
  induction l with
  | nil => simp
  | cons a t ih =>
    rw [List.map_cons, List.sum_cons, List.length_cons, Finset.sum_range_succ']
    simp only [List.getD_cons_succ, List.getD_cons_zero]
    rw [ih]
    omega

lemma countP_eq_sum_range (p : Int → Bool) (d : Int) :
    ∀ (l : List Int),
      l.countP p = ∑ i ∈ Finset.range l.length, (if p (l.getD i d) then 1 else 0) := by
  intro l
  induction l with
  | nil => simp
  | cons a t ih =>
    rw [List.countP_cons, List.length_cons, Finset.sum_range_succ']
    simp only [List.getD_cons_succ, List.getD_cons_zero]
    rw [ih]

lemma countP_nat_range (p : Nat → Bool) (n : Nat) :
    (List.range n).countP p = ∑ i ∈ Finset.range n, (if p i then 1 else 0) := by
  induction n with
  | zero => simp
  | succ m ih =>
    rw [List.range_succ, List.countP_append, Finset.sum_range_succ, ih]
    by_cases hpm : p m <;> simp [hpm, List.countP_cons]

lemma countP_flatMap {α β : Type} (p : β → Bool) (f : α → List β) :
    ∀ (l : List α), (l.flatMap f).countP p = (l.map (fun a => (f a).countP p)).sum := by
  intro l
  induction l with
  | nil => simp
  | cons a t ih => rw [List.flatMap_cons, List.countP_append, List.map_cons, List.sum_cons, ih]

lemma freeCoords_length_eq {w h : Int} (obstacles : List (Int × Int)) :
    (freeCoords w h obstacles).length
      = ∑ x ∈ Finset.range w.toNat, ∑ y ∈ Finset.range h.toNat,
          (if (Int.ofNat x, Int.ofNat y) ∈ obstacles then 0 else 1) := by
  unfold freeCoords allCoords
  rw [← List.countP_eq_length_filter, countP_flatMap]
  rw [show (List.range w.toNat).map
      (fun a => (((List.range h.toNat).map (fun y => (Int.ofNat a, Int.ofNat y))).countP
        (fun c => decide (c ∉ obstacles))))
      = (List.range w.toNat).map
      (fun a => ((List.range h.toNat).countP
        (fun y => decide ((Int.ofNat a, Int.ofNat y) ∉ obstacles)))) from by
    apply List.map_congr_left
    intro a _
    rw [List.countP_map]
    rfl]
  rw [sum_map_eq_sum_range _ 0]
  rw [List.length_range]
  apply Finset.sum_congr rfl
  intro x hx
  rw [Finset.mem_range] at hx
  rw [List.getD_eq_getElem?_getD]
  rw [List.getElem?_range hx]
  simp only [Option.getD_some]
  rw [countP_nat_range]
  apply Finset.sum_congr rfl
  intro y _
  by_cases hmem : (Int.ofNat x, Int.ofNat y) ∈ obstacles <;> simp [hmem]

lemma gridCellCount_eq_free {w h : Int} {obstacles : List (Int × Int)} {g : Grid}
    (hpos : 0 < w ∧ 0 < h) (hwf : WFGrid w h g)
    (hobs : ∀ c, InB w h c → (cellAt g c.1 c.2 = OBSTACLE ↔ c ∈ obstacles)) :
    gridCellCount g (fun v => decide (v ≠ OBSTACLE))
      = (freeCoords w h obstacles).length := by
  rw [freeCoords_length_eq]
  unfold gridCellCount
  rw [sum_map_eq_sum_range _ []]
  rw [hwf.1]
  rw [show (∑ yi ∈ Finset.range h.toNat,
        (g.getD yi []).countP (fun v => decide (v ≠ OBSTACLE)))
      = ∑ yi ∈ Finset.range h.toNat, ∑ xi ∈ Finset.range w.toNat,
          (if (Int.ofNat xi, Int.ofNat yi) ∈ obstacles then 0 else 1) from ?_]
  · exact Finset.sum_comm
  apply Finset.sum_congr rfl
  intro yi hyi
  rw [Finset.mem_range] at hyi
  have hyg : yi < g.length := by rw [hwf.1]; omega
  have hrow : g.get? yi = some (g.getD yi []) := by
    rw [List.getD_eq_getElem?_getD]
    rw [List.get?_eq_getElem?]
    cases hx : g[yi]? with
    | none => rw [List.getElem?_eq_none_iff] at hx; omega
    | some r => rfl
  have hrowlen : (g.getD yi []).length = w.toNat :=
    hwf.2 _ (List.get?_mem hrow)
  rw [countP_eq_sum_range _ (-1), hrowlen]
  apply Finset.sum_congr rfl
  intro xi hxi
  rw [Finset.mem_range] at hxi
  have hinb : InB w h (Int.ofNat xi, Int.ofNat yi) := by
    refine ⟨?_, ?_, ?_, ?_⟩ <;> simp only [Int.ofNat_eq_coe] <;> omega
  have hcell : cellAt g (Int.ofNat xi) (Int.ofNat yi) = (g.getD yi []).getD xi (-1) := by
    rw [cellAt_of_row hwf hinb (by
      rw [show (Int.ofNat yi).toNat = yi from rfl]
      exact hrow)]
    rw [show (Int.ofNat xi).toNat = xi from rfl]
    rw [List.get?_eq_getElem?]
    rw [show ((List.getD g yi []).getD xi (-1) : Int)
        = (List.getD g yi [])[xi]?.getD (-1) from List.getD_eq_getElem?_getD _ _ _]
  rw [← hcell]
  by_cases hmem : (Int.ofNat xi, Int.ofNat yi) ∈ obstacles
  · rw [if_pos hmem]
    have hval : cellAt g (Int.ofNat xi) (Int.ofNat yi) = OBSTACLE := (hobs _ hinb).2 hmem
    rw [Int.ofNat_eq_coe, Int.ofNat_eq_coe] at hval
    simp [hval]
  · rw [if_neg hmem]
    have hval : ¬(cellAt g (Int.ofNat xi) (Int.ofNat yi) = OBSTACLE) := by
      intro hx
      exact hmem ((hobs _ hinb).1 hx)
    rw [Int.ofNat_eq_coe, Int.ofNat_eq_coe] at hval
    simp [hval]

/-! ### Claim theorems -/

/-- C3: whenever the frontier search `find_most_efficient_path` returns a
path, it is a non-empty sequence of 4-connected adjacent cells excluding
the robot's current position, whose first cell is adjacent to the robot's
position, passing only through in-bounds cells that are neither
`OBSTACLE` nor `DYNAMIC_OBSTACLE`, whose last cell is a member of
`unvisited_cells` while no earlier cell is; and in the specific state
with the single unvisited cell `(2, 2)` and the agent at `(0, 0)`, the
returned path ends at exactly `(2, 2)`. -/
theorem C3_frontier_path_sound :
    (∀ (s : NavState) (fuel : Nat) (p : List (Int × Int)),
      find_most_efficient_path s fuel = some (some p) →
      p ≠ [] ∧ List.Chain Adjacent s.robot_pos p ∧ s.robot_pos ∉ p ∧
        (∀ c ∈ p, InB s.width s.height c ∧
          cellAt s.grid c.1 c.2 ≠ OBSTACLE ∧ cellAt s.grid c.1 c.2 ≠ DYNAMIC_OBSTACLE) ∧
        (∀ c, p.getLast? = some c → c ∈ s.unvisited_cells) ∧
        (∀ c ∈ p.dropLast, c ∉ s.unvisited_cells)) ∧
    find_most_efficient_path frontierScene 50
      = some (some [(0, 1), (0, 2), (1, 2), (2, 2)]) ∧
    ([((0 : Int), (1 : Int)), (0, 2), (1, 2), (2, 2)]).getLast? = some (2, 2) := by
  refine ⟨?_, by decide, by decide⟩
  intro s fuel p hp
  obtain ⟨h1, h2, h3, h4, h5, h6⟩ := find_path_spec s fuel p hp
  exact ⟨h1, h2, h3, h4, h5, h6⟩

/-- C3 witness: the general theorem applied at the concrete
single-unvisited-cell scenario. -/
theorem C3_frontier_path_sound_witness :
    List.Chain Adjacent frontierScene.robot_pos [(0, 1), (0, 2), (1, 2), (2, 2)] ∧
    frontierScene.robot_pos ∉ ([((0 : Int), (1 : Int)), (0, 2), (1, 2), (2, 2)]) := by
  have hmain := C3_frontier_path_sound.1 frontierScene 50
    [(0, 1), (0, 2), (1, 2), (2, 2)] (by decide)
  exact ⟨hmain.2.1, hmain.2.2.1⟩

/-- C2 counterexample: on the obstacle-free 5×5 grid, the A* path from
`(0, 0)` to `(4, 4)` has 9 elements, not 8, and its first element is the
start cell — the returned path is inclusive, not exclusive, of the
start. -/
theorem C2_astar_counterexample :
    astar_pathfinding astarScene (0, 0) (4, 4) 300
      = some (some [(0, 0), (0, 1), (0, 2), (0, 3), (0, 4), (1, 4), (2, 4), (3, 4), (4, 4)]) ∧
    ([((0 : Int), (0 : Int)), (0, 1), (0, 2), (0, 3), (0, 4),
      (1, 4), (2, 4), (3, 4), (4, 4)]).length = 9 ∧
    ([((0 : Int), (0 : Int)), (0, 1), (0, 2), (0, 3), (0, 4),
      (1, 4), (2, 4), (3, 4), (4, 4)]).head? = some (0, 0) := by
  refine ⟨by decide, by decide, by decide⟩

/-- C2 amended: whenever `astar_pathfinding(start, target)` returns a
path, that path is a sequence of 4-connected adjacent cells whose FIRST
element is `start` and whose last element is `target` (inclusive of both
endpoints, not exclusive of the start), all elements other than the start
being in-bounds cells that are neither `OBSTACLE` nor
`DYNAMIC_OBSTACLE`; on the obstacle-free 5×5 grid the path returned for
`(0, 0) → (4, 4)` has 9 elements (8 moves, Manhattan-optimal). -/
theorem C2_astar_amended :
    (∀ (s : NavState) (start target : Int × Int) (fuel : Nat) (p : List (Int × Int)),
      astar_pathfinding s start target fuel = some (some p) →
      p.head? = some start ∧ p.getLast? = some target ∧ List.Chain' Adjacent p ∧
        ∀ c ∈ p, c = start ∨ (InB s.width s.height c ∧
          cellAt s.grid c.1 c.2 ≠ OBSTACLE ∧ cellAt s.grid c.1 c.2 ≠ DYNAMIC_OBSTACLE)) ∧
    (astar_pathfinding astarScene (0, 0) (4, 4) 300).map (Option.map List.length)
      = some (some 9) := by
  refine ⟨?_, by decide⟩
  intro s start target fuel p hp
  exact astar_spec s start target fuel p hp

/-- C2 amended witness: the amended theorem applied at the 5×5 scenario. -/
theorem C2_astar_amended_witness :
    ([((0 : Int), (0 : Int)), (0, 1), (0, 2), (0, 3), (0, 4),
      (1, 4), (2, 4), (3, 4), (4, 4)]).head? = some ((0 : Int), (0 : Int)) ∧
    ([((0 : Int), (0 : Int)), (0, 1), (0, 2), (0, 3), (0, 4),
      (1, 4), (2, 4), (3, 4), (4, 4)]).getLast? = some ((4 : Int), (4 : Int)) := by
  have hmain := C2_astar_amended.1 astarScene (0, 0) (4, 4) 300
    [(0, 0), (0, 1), (0, 2), (0, 3), (0, 4), (1, 4), (2, 4), (3, 4), (4, 4)] (by decide)
  exact ⟨hmain.1, hmain.2.1⟩

/-- C10: whenever more than one unvisited cell remains, the frontier
searches of `demo.py`, `h1.py` and `h14.py` agree extensionally: on
identical state they return identical results (including returning
`None` in exactly the same states). -/
theorem C10_frontier_equivalence (s : NavState) (fuel : Nat)
    (hgt : 1 < s.unvisited_cells.length) :
    h1_find_most_efficient_path s fuel = find_most_efficient_path s fuel ∧
    h14_find_most_efficient_path s fuel = find_most_efficient_path s fuel := by
  refine ⟨?_, rfl⟩
  unfold h1_find_most_efficient_path find_most_efficient_path
  cases hu : s.unvisited_cells with
  | nil => rfl
  | cons a rest =>
    cases hrest : rest with
    | nil => rw [hu, hrest] at hgt; simp at hgt
    | cons b t => rfl

/-- C10 witness: the three searches agree on a concrete state with two
unvisited cells. -/
theorem C10_frontier_equivalence_witness :
    1 < twoLeftScene.unvisited_cells.length ∧
    h1_find_most_efficient_path twoLeftScene 50
      = find_most_efficient_path twoLeftScene 50 ∧
    h14_find_most_efficient_path twoLeftScene 50
      = find_most_efficient_path twoLeftScene 50 :=
  ⟨by decide, C10_frontier_equivalence twoLeftScene 50 (by decide)⟩

/-- C4 counterexample: in `demo.py`, a dynamic obstacle sitting on an
interior cell of the planned path does not stop the move.  In
`blockScene` the planner returns the path `[(0,1), (0,2)]`; the obstacle
then moves onto `(0, 1)` (a legal shuffle outcome), yet `move_robot`
still returns `True` and the robot advances to `(0, 2)`. -/
theorem C4_blocked_path_counterexample :
    (blockShuffle 0).Perm dirs4 ∧
    find_most_efficient_path blockScene 40 = some (some [(0, 1), (0, 2)]) ∧
    cellAt blockScene'.grid 0 1 = DYNAMIC_OBSTACLE ∧
    (move_robot blockScene' [(0, 1), (0, 2)]).2 = true ∧
    (move_robot blockScene' [(0, 1), (0, 2)]).1.robot_pos = (0, 2) := by
  refine ⟨by decide, by decide, by decide, by decide, by decide⟩

/-- C4 amended: `h13.py`'s per-tick check scans the whole path and a
blocked tick leaves the navigation state completely unchanged; `demo.py`'s
`move_robot` only refuses to move when the FINAL path cell currently
holds a dynamic obstacle, and in that case the robot position and the
visited/unvisited sets are unchanged (though `VISITED` cells on the path
interior have already been recoloured `RETRACED_PATH` in the grid). -/
theorem C4_blocked_no_move_amended :
    (∀ (s : NavState) (p : List (Int × Int)),
      p.any (fun c => cellAt s.grid c.1 c.2 = DYNAMIC_OBSTACLE) = true →
      h13_tick s (some p) = s) ∧
    (∀ (s : NavState) (c0 : Int × Int) (rest : List (Int × Int)),
      cellAt (recolorPath s.grid ((c0 :: rest).dropLast)) (rest.getLastD c0).1
          (rest.getLastD c0).2 = DYNAMIC_OBSTACLE →
      (move_robot s (c0 :: rest)).2 = false ∧
      (move_robot s (c0 :: rest)).1.robot_pos = s.robot_pos ∧
      (move_robot s (c0 :: rest)).1.visited_cells = s.visited_cells ∧
      (move_robot s (c0 :: rest)).1.unvisited_cells = s.unvisited_cells) := by
  constructor
  · intro s p hblock
    unfold h13_tick
    dsimp only
    rw [if_pos hblock]
  · intro s c0 rest hblock
    unfold move_robot
    dsimp only
    rw [if_pos hblock]
    exact ⟨rfl, rfl, rfl, rfl⟩

/-- C4 amended witness: both parts applied at a concrete blocked path. -/
theorem C4_blocked_no_move_amended_witness :
    h13_tick blockScene (some [(1, 1)]) = blockScene ∧
    (move_robot blockScene [(1, 1)]).2 = false ∧
    (move_robot blockScene [(1, 1)]).1.robot_pos = blockScene.robot_pos :=
  ⟨C4_blocked_no_move_amended.1 blockScene [(1, 1)] (by decide),
   (C4_blocked_no_move_amended.2 blockScene (1, 1) [] (by decide)).1,
   (C4_blocked_no_move_amended.2 blockScene (1, 1) [] (by decide)).2.1⟩

/-- C6 counterexample: constructing a session with the out-of-bounds
static obstacle coordinate `(-1, 0)` does not fail at all — Python's
negative indexing silently marks cell `(1, 0)` instead, and the cell is
even left in the unvisited set. -/
theorem C6_no_validation_counterexample :
    isOk (RobotNavigation_init 2 2 [(-1, 0)] [(0, 0), (0, 1), (1, 1)]) = true ∧
    cellAt wrapScene.grid 1 0 = OBSTACLE ∧
    ((1 : Int), (0 : Int)) ∈ wrapScene.unvisited_cells := by
  refine ⟨by decide, by decide, by decide⟩

/-- C6 amended: construction performs no validation and there is no
`InvalidConfiguration` error: an obstacle coordinate at or beyond the
grid dimension raises an uncaught `IndexError`; non-positive dimensions
raise an uncaught `ValueError` (from `random.randint`); and an obstacle
coordinate with a negative component in range silently marks a
wrapped-around cell while the session is created normally. -/
theorem C6_no_validation_amended :
    RobotNavigation_init 3 3 [(3, 0)] [(1, 1), (2, 2), (0, 1)] = .error .indexError ∧
    RobotNavigation_init 0 5 [] [(0, 0), (0, 0), (0, 0)] = .error .valueError ∧
    RobotNavigation_init 2 2 [(-1, 0)] [(0, 0), (0, 1), (1, 1)] = .ok wrapScene ∧
    cellAt wrapScene.grid 1 0 = OBSTACLE :=
  ⟨rfl, rfl, rfl, by decide⟩

/-- C9 counterexample: in `stuckScene` the dynamic obstacle at `(2, 2)`
is walled in; after `move_dynamic_obstacles` it is still recorded at
`(2, 2)` in the obstacle list, but its grid cell has been restored to
`UNVISITED` and is not marked `DYNAMIC_OBSTACLE`. -/
theorem C9_stuck_obstacle_counterexample :
    (move_dynamic_obstacles stuckScene (fun _ => dirs4)).dynamic_obstacles.head?
      = some (2, 2) ∧
    cellAt (move_dynamic_obstacles stuckScene (fun _ => dirs4)).grid 2 2 = UNVISITED ∧
    cellAt (move_dynamic_obstacles stuckScene (fun _ => dirs4)).grid 2 2
      ≠ DYNAMIC_OBSTACLE := by
  refine ⟨by decide, by decide, by decide⟩

/-- C9 amended: in one dynamic obstacle's step, an obstacle that moves
has its new cell marked `DYNAMIC_OBSTACLE`, but an obstacle with no
admissible neighbouring cell stays at its position and its cell is left
holding the restored logical state (`VISITED`, `RETRACED_PATH` or
`UNVISITED`) rather than being re-marked `DYNAMIC_OBSTACLE`. -/
theorem C9_marking_amended (w h : Int) (visited unvisited : List (Int × Int))
    (g : Grid) (pos : Int × Int) (dirs : List (Int × Int))
    (hwf : WFGrid w h g) (hpos : InB w h pos) (hdz : ((0 : Int), (0 : Int)) ∉ dirs) :
    ((stepOneObstacle w h visited unvisited g pos dirs).2 ≠ pos →
      cellAt (stepOneObstacle w h visited unvisited g pos dirs).1
        (stepOneObstacle w h visited unvisited g pos dirs).2.1
        (stepOneObstacle w h visited unvisited g pos dirs).2.2 = DYNAMIC_OBSTACLE) ∧
    ((stepOneObstacle w h visited unvisited g pos dirs).2 = pos →
      cellAt (stepOneObstacle w h visited unvisited g pos dirs).1 pos.1 pos.2
        = (if pos ∈ visited then VISITED
           else if pos ∉ unvisited then RETRACED_PATH else UNVISITED)) := by
  have hmain : ∀ (v : Int),
      ((stepOneObstacle w h visited unvisited g pos dirs)
          = (match dirs.find? (fun d =>
              decide (InB w h (pos.1 + d.1, pos.2 + d.2) ∧
                (cellAt (setCell g pos.1 pos.2 v) (pos.1 + d.1) (pos.2 + d.2) = UNVISITED ∨
                 cellAt (setCell g pos.1 pos.2 v) (pos.1 + d.1) (pos.2 + d.2) = VISITED ∨
                 cellAt (setCell g pos.1 pos.2 v) (pos.1 + d.1) (pos.2 + d.2)
                   = RETRACED_PATH) ∧
                cellAt (setCell g pos.1 pos.2 v) (pos.1 + d.1) (pos.2 + d.2) ≠ ROBOT)) with
            | some d => (setCell (setCell g pos.1 pos.2 v) (pos.1 + d.1) (pos.2 + d.2)
                DYNAMIC_OBSTACLE, (pos.1 + d.1, pos.2 + d.2))
            | none => (setCell g pos.1 pos.2 v, pos))) →
      ((stepOneObstacle w h visited unvisited g pos dirs).2 ≠ pos →
        cellAt (stepOneObstacle w h visited unvisited g pos dirs).1
          (stepOneObstacle w h visited unvisited g pos dirs).2.1
          (stepOneObstacle w h visited unvisited g pos dirs).2.2 = DYNAMIC_OBSTACLE) ∧
      ((stepOneObstacle w h visited unvisited g pos dirs).2 = pos →
        cellAt (stepOneObstacle w h visited unvisited g pos dirs).1 pos.1 pos.2 = v) := by
    intro v h1
    cases hfind : dirs.find? (fun d =>
        decide (InB w h (pos.1 + d.1, pos.2 + d.2) ∧
          (cellAt (setCell g pos.1 pos.2 v) (pos.1 + d.1) (pos.2 + d.2) = UNVISITED ∨
           cellAt (setCell g pos.1 pos.2 v) (pos.1 + d.1) (pos.2 + d.2) = VISITED ∨
           cellAt (setCell g pos.1 pos.2 v) (pos.1 + d.1) (pos.2 + d.2) = RETRACED_PATH) ∧
          cellAt (setCell g pos.1 pos.2 v) (pos.1 + d.1) (pos.2 + d.2) ≠ ROBOT)) with
    | none =>
      rw [hfind] at h1
      rw [h1]
      constructor
      · intro hne
        exact absurd rfl hne
      · intro _
        exact cellAt_setCell_self hwf hpos v
    | some d =>
      rw [hfind] at h1
      rw [h1]
      have hpred := List.find?_some hfind
      rw [decide_eq_true_eq] at hpred
      constructor
      · intro _
        exact cellAt_setCell_self (WFGrid_setCell hwf pos.1 pos.2 v) hpred.1
          DYNAMIC_OBSTACLE
      · intro heq
        exfalso
        have hd0 : d ≠ ((0 : Int), (0 : Int)) :=
          fun hx => hdz (hx ▸ List.mem_of_find?_eq_some hfind)
        apply hd0
        have e1 : pos.1 + d.1 = pos.1 := congrArg Prod.fst heq
        have e2 : pos.2 + d.2 = pos.2 := congrArg Prod.snd heq
        rw [Prod.ext_iff]
        constructor
        · simp only
          omega
        · simp only
          omega
  by_cases hv : pos ∈ visited
  · rw [if_pos hv]
    exact hmain VISITED (by simp only [stepOneObstacle, if_pos hv])
  · by_cases hu : pos ∉ unvisited
    · rw [if_neg hv, if_pos hu]
      exact hmain RETRACED_PATH (by simp only [stepOneObstacle, if_neg hv, if_pos hu])
    · rw [if_neg hv, if_neg hu]
      exact hmain UNVISITED (by simp only [stepOneObstacle, if_neg hv, if_neg hu])

/-- C9 amended witness: the amended theorem applied to the walled-in
obstacle of `stuckScene`, whose restored cell state is `UNVISITED`. -/
theorem C9_marking_amended_witness :
    (stepOneObstacle 3 3 stuckScene.visited_cells stuckScene.unvisited_cells
      stuckScene.grid (2, 2) dirs4).2 = (2, 2) ∧
    cellAt (stepOneObstacle 3 3 stuckScene.visited_cells stuckScene.unvisited_cells
      stuckScene.grid (2, 2) dirs4).1 2 2 = UNVISITED := by
  have hmain := (C9_marking_amended 3 3 stuckScene.visited_cells
    stuckScene.unvisited_cells stuckScene.grid (2, 2) dirs4
    ⟨by decide, by decide⟩ (by decide) (by decide)).2 (by decide)
  refine ⟨by decide, ?_⟩
  rw [hmain]
  decide

lemma navInv_no_unvisited_marker {w h : Int} {obstacles : List (Int × Int)}
    {s : NavState} (inv : NavInv w h obstacles s)
    (hempty : s.unvisited_cells = []) :
    (s.grid.all (fun row => row.all (fun cell => cell ≠ UNVISITED))) = true := by
  rw [List.all_eq_true]
  intro row hrow
  rw [List.all_eq_true]
  intro v hv
  rw [decide_eq_true_eq]
  intro hv0
  obtain ⟨yi, hyilen, hyeq⟩ := List.getElem_of_mem hrow
  obtain ⟨xi, hxilen, hxeq⟩ := List.getElem_of_mem hv
  have hrow? : s.grid.get? yi = some row := by
    rw [List.get?_eq_getElem?, List.getElem?_eq_getElem hyilen, hyeq]
  have hrowlen : row.length = w.toNat := inv.hwf.2 _ hrow
  have hylen : yi < h.toNat := by
    have := inv.hwf.1
    omega
  have hinb : InB w h (Int.ofNat xi, Int.ofNat yi) := by
    obtain ⟨hw0, hh0⟩ := inv.hpos
    refine ⟨?_, ?_, ?_, ?_⟩ <;> simp only [Int.ofNat_eq_coe] <;> omega
  have hcell : cellAt s.grid (Int.ofNat xi) (Int.ofNat yi) = v := by
    rw [cellAt_of_row inv.hwf hinb (by
      rw [show (Int.ofNat yi).toNat = yi from rfl]
      exact hrow?)]
    rw [show (Int.ofNat xi).toNat = xi from rfl]
    rw [List.get?_eq_getElem?, List.getElem?_eq_getElem hxilen, hxeq]
    rfl
  have hmem := inv.hzero _ hinb (by rw [hcell, hv0])
  rw [hempty] at hmem
  exact absurd hmem (List.not_mem_nil _)

/-- C1: in every reachable state of a session constructed with in-bounds,
distinct static obstacles away from the agent start, the visited and
unvisited sets are disjoint and their sizes sum to the number of grid
cells whose state is not `OBSTACLE`. -/
theorem C1_partition_invariant (w h : Int) (obstacles : List (Int × Int))
    (s : NavState) (hgo : GoodObstacles w h obstacles)
    (hr : Reachable w h obstacles s) :
    (∀ c ∈ s.visited_cells, c ∉ s.unvisited_cells) ∧
    s.visited_cells.length + s.unvisited_cells.length
      = gridCellCount s.grid (fun v => decide (v ≠ OBSTACLE)) := by
  have inv := reachable_navInv hgo hr
  constructor
  · intro c h1 h2
    exact navInv_disjoint inv h1 h2
  · rw [gridCellCount_eq_free inv.hpos inv.hwf inv.hobs]
    rw [← inv.hperm.length_eq, List.length_append]

/-- C1 witness: the invariant at a concrete freshly constructed 2×2
session. -/
theorem C1_partition_invariant_witness :
    witScene.visited_cells.length + witScene.unvisited_cells.length
      = gridCellCount witScene.grid (fun v => decide (v ≠ OBSTACLE)) :=
  (C1_partition_invariant 2 2 [] witScene
    ⟨List.nodup_nil, by decide, by decide⟩
    (Reachable.init [(0, 1), (1, 0), (1, 1)] witScene rfl)).2

/-- C5: in every reachable state, `is_exploration_complete` of `demo.py`
returns true exactly when the unvisited set is empty; `h1.py`'s version
is the same test in any state whatsoever. -/
theorem C5_complete_iff_empty (w h : Int) (obstacles : List (Int × Int))
    (s : NavState) (hgo : GoodObstacles w h obstacles)
    (hr : Reachable w h obstacles s) :
    (is_exploration_complete s = true ↔ s.unvisited_cells = []) ∧
    (∀ t : NavState, h1_is_exploration_complete t = true ↔ t.unvisited_cells = []) := by
  have inv := reachable_navInv hgo hr
  constructor
  · unfold is_exploration_complete
    rw [Bool.and_eq_true]
    constructor
    · rintro ⟨h1, _⟩
      rw [decide_eq_true_eq] at h1
      exact List.length_eq_zero.1 h1
    · intro hempty
      refine ⟨by rw [hempty]; rfl, navInv_no_unvisited_marker inv hempty⟩
  · intro t
    unfold h1_is_exploration_complete
    exact List.isEmpty_iff

/-- C5 witness: the equivalence at a concrete reachable session state. -/
theorem C5_complete_iff_empty_witness :
    (is_exploration_complete witScene = true ↔ witScene.unvisited_cells = []) ∧
    (h1_is_exploration_complete witScene = true ↔ witScene.unvisited_cells = []) :=
  ⟨(C5_complete_iff_empty 2 2 [] witScene ⟨List.nodup_nil, by decide, by decide⟩
      (Reachable.init [(0, 1), (1, 0), (1, 1)] witScene rfl)).1,
   (C5_complete_iff_empty 2 2 [] witScene ⟨List.nodup_nil, by decide, by decide⟩
      (Reachable.init [(0, 1), (1, 0), (1, 1)] witScene rfl)).2 witScene⟩

/-- C7: in every reachable state — at initial placement and after every
`move_dynamic_obstacles` call — no dynamic obstacle's position is a cell
whose state is `OBSTACLE`, i.e. a coordinate from the static obstacle
list. -/
theorem C7_dynamic_never_on_obstacle (w h : Int) (obstacles : List (Int × Int))
    (s : NavState) (hgo : GoodObstacles w h obstacles)
    (hr : Reachable w h obstacles s) :
    ∀ o ∈ s.dynamic_obstacles,
      o ∉ obstacles ∧ cellAt s.grid o.1 o.2 ≠ OBSTACLE := by
  have inv := reachable_navInv hgo hr
  intro o ho
  obtain ⟨hinb, hnotobs⟩ := inv.hdyn o ho
  refine ⟨hnotobs, ?_⟩
  intro hval
  exact hnotobs ((inv.hobs o hinb).1 hval)

/-- C7 witness: the property at a concrete freshly constructed session
whose three dynamic obstacles sit on free cells. -/
theorem C7_dynamic_never_on_obstacle_witness :
    ((1 : Int), (1 : Int)) ∈ witScene.dynamic_obstacles ∧
    cellAt witScene.grid 1 1 ≠ OBSTACLE :=
  ⟨by decide,
   (C7_dynamic_never_on_obstacle 2 2 [] witScene
      ⟨List.nodup_nil, by decide, by decide⟩
      (Reachable.init [(0, 1), (1, 0), (1, 1)] witScene rfl)
      (1, 1) (by decide)).2⟩

/-- C8 counterexample: on the 4×4 scenario the exploration is already
complete after 15 successful moves, and a 16th successful move cannot
happen — once the grid is covered the planner returns `None` and
`move_robot` cannot succeed again, so "after exactly 16 successful
moves" never occurs (the start cell counts as visited from
construction, leaving only 15 cells to visit). -/
theorem C8_sixteen_moves_counterexample :
    is_exploration_complete ((runOk coverScene 15).getD default) = true ∧
    runOk coverScene 16 = none := by
  refine ⟨by decide, by decide⟩

/-- C8 amended: on a 4×4 grid with no static obstacles, no dynamic
obstacles and the single agent at `(0, 0)`, after exactly 15 successful
moves (not 16) `is_exploration_complete` returns true: all 15 planner
calls return a path and all 15 moves succeed, coverage is not complete
after 14 moves, and after the 15th the planner returns `None`.  (The
repository itself always places 3 dynamic obstacles in `demo.py`; the
scenario's "no dynamic obstacles" is modelled by an empty placement
stream.) -/
theorem C8_fifteen_moves_amended :
    (runOk coverScene 15).isSome = true ∧
    is_exploration_complete ((runOk coverScene 15).getD default) = true ∧
    is_exploration_complete ((runOk coverScene 14).getD default) = false ∧
    find_most_efficient_path ((runOk coverScene 15).getD default) 300 = some none := by
  refine ⟨by decide, by decide, by decide, by decide⟩
